import Mathlib

/-!
Verification development for the `stress-test-ets` file-transfer service.

The embedding models the connection engine of `src/file_server.py`
(`ClientHandler.run`, `ClientHandler._send_response`) and the storage backend
of `src/file_interface.py` (`detect_file_type`, `FileInterface.list`,
`FileInterface.get`, `FileInterface.upload`, `FileInterface.delete`).

Text is modelled as lists of Unicode code points (`List Nat`); byte streams as
lists of byte values (`List Nat`).  The filesystem is an association list from
slash-separated paths to byte contents, with the working directory fixed to
`files/` (as set by `FileInterface.__init__`).  The MD5 digest used for
content addressing is an abstract parameter `hash : List Nat → List Nat`
(MD5 is deterministic; no claim depends on its internals).

`file_protocol.py` (class `FileProtocol`, method `proses_string`) is imported
by `src/file_server.py` but is not part of the source tree; it is modelled
from the spec where noted.
-/

set_option maxRecDepth 8000

namespace StressEts

/-- Code points of a Lean string literal; used to write protocol text. -/
def txt (s : String) : List Nat := s.data.map Char.toNat

/-- Whitespace code points stripped by Python `str.strip()` and split on by
`str.split()`: every code point for which `str.isspace` is true — the ASCII
range, the latin-1 pair NEL/NBSP, Ogham space mark U+1680, the U+2000–U+200A
spaces, the line/paragraph separators U+2028/U+2029, and U+202F, U+205F,
U+3000. -/
def pyWs (c : Nat) : Bool :=
  (9 ≤ c && c ≤ 13) || (28 ≤ c && c ≤ 31) || c == 32 || c == 133 || c == 160
    || c == 5760 || (8192 ≤ c && c ≤ 8202) || c == 8232 || c == 8233
    || c == 8239 || c == 8287 || c == 12288

/-- Python `str.strip()`: drop leading and trailing whitespace. -/
def stripWs (s : List Nat) : List Nat :=
  ((s.dropWhile pyWs).reverse.dropWhile pyWs).reverse

/-- Python `str.split()` with no argument: split on whitespace runs, no empty
tokens. -/
def splitWsAux (cur : List Nat) : List Nat → List (List Nat)
  | [] => if cur = [] then [] else [cur.reverse]
  | c :: rest =>
    if pyWs c then
      if cur = [] then splitWsAux [] rest
      else cur.reverse :: splitWsAux [] rest
    else splitWsAux (c :: cur) rest

/-- Python `str.split()` on a whole string. -/
def splitWs (s : List Nat) : List (List Nat) := splitWsAux [] s

/-- Python `buffer.split('\n', 1)`: first line (without the newline) and the
rest, or `none` when the buffer holds no newline (`'\n' in buffer` false). -/
def splitNL : List Nat → Option (List Nat × List Nat)
  | [] => none
  | c :: rest =>
    if c = 10 then some ([], rest)
    else
      match splitNL rest with
      | some (l, r) => some (c :: l, r)
      | none => none

/-! ## Filesystem model

Paths are slash-separated code-point strings.  `resolvePath` performs the
lexical resolution the operating system applies to the path arguments the
Python code passes to `open`, `os.remove` and `glob` while the process working
directory is `files/`: absolute paths are taken from the root, relative paths
from the working directory, and `.`/`..` segments are folded away. -/

/-- Split a path on `/` (code point 47), keeping empty segments. -/
def splitSlash : List Nat → List (List Nat)
  | [] => [[]]
  | c :: rest =>
    if c = 47 then [] :: splitSlash rest
    else
      match splitSlash rest with
      | p :: ps => (c :: p) :: ps
      | [] => [[c]]

/-- Fold away empty, `.` and `..` segments, `..` popping the previous
segment. -/
def normSegs (stack : List (List Nat)) : List (List Nat) → List (List Nat)
  | [] => stack.reverse
  | s :: rest =>
    if s = [] ∨ s = [46] then normSegs stack rest
    else if s = [46, 46] then normSegs stack.tail rest
    else normSegs (s :: stack) rest

/-- Join path segments with `/`. -/
def joinSlash (segs : List (List Nat)) : List Nat := List.intercalate [47] segs

/-- Resolve the path argument `p` against working directory `cwd`. -/
def resolvePath (cwd p : List Nat) : List Nat :=
  let segs := if p.head? = some 47 then splitSlash p else splitSlash cwd ++ splitSlash p
  joinSlash (normSegs [] segs)

/-- The working directory of the storage backend, set once by
`FileInterface.__init__` via `os.chdir('files/')`. -/
def cwdFiles : List Nat := txt "files"

/-- A filesystem: association list from resolved paths to byte contents. -/
abbrev Fs := List (List Nat × List Nat)

/-- Contents of the file at path `k`, if it exists. -/
def fsLookup : Fs → List Nat → Option (List Nat)
  | [], _ => none
  | (k2, v) :: rest, k => if k2 = k then some v else fsLookup rest k

/-- Remove the file at path `k` (`os.remove`); no effect when absent. -/
def fsRemove : Fs → List Nat → Fs
  | [], _ => []
  | (k2, v) :: rest, k => if k2 = k then fsRemove rest k else (k2, v) :: fsRemove rest k

/-- Create or overwrite the file at path `k` (`open(k, 'wb')` + write). -/
def fsWrite (fs : Fs) (k v : List Nat) : Fs := fsRemove fs k ++ [(k, v)]

/-- Append bytes to the existing file at `k` (a write on an open handle). -/
def fsAppend (fs : Fs) (k bs : List Nat) : Fs :=
  fsWrite fs k ((fsLookup fs k).getD [] ++ bs)

/-! ## Storage backend: `src/file_interface.py` -/

/-- Translation of `detect_file_type` from `src/file_interface.py`: sniff the
extension from the first bytes of the file. -/
def detect_file_type (file_bytes : List Nat) : List Nat :=
  let header := file_bytes.take 16
  if [137, 80, 78, 71, 13, 10, 26, 10].isPrefixOf header then txt ".png"
  else if [255, 216, 255].isPrefixOf header then txt ".jpeg"
  else if [37, 80, 68, 70].isPrefixOf header then txt ".pdf"
  else if [71, 73, 70, 56, 55, 97].isPrefixOf header ∨ [71, 73, 70, 56, 57, 97].isPrefixOf header then txt ".gif"
  else if [80, 75, 3, 4].isPrefixOf header then txt ".zip"
  else if [73, 68, 51].isPrefixOf header ∨ header.take 2 = [255, 251] then txt ".mpeg"
  else []

/-! ## base64 (Python `base64.b64encode` / `base64.b64decode`) -/

/-- The base64 alphabet: value `v < 64` to its ASCII code point. -/
def b64tab (v : Nat) : Nat :=
  if v < 26 then 65 + v
  else if v < 52 then 97 + (v - 26)
  else if v < 62 then 48 + (v - 52)
  else if v = 62 then 43 else 47

/-- Inverse alphabet: code point to base64 value, `none` off-alphabet. -/
def b64untab (c : Nat) : Option Nat :=
  if 65 ≤ c ∧ c ≤ 90 then some (c - 65)
  else if 97 ≤ c ∧ c ≤ 122 then some (26 + (c - 97))
  else if 48 ≤ c ∧ c ≤ 57 then some (52 + (c - 48))
  else if c = 43 then some 62
  else if c = 47 then some 63
  else none

/-- `base64.b64encode` on a byte list (standard alphabet, `=` padding). -/
def b64encode : List Nat → List Nat
  | [] => []
  | [a] => [b64tab (a / 4), b64tab (a % 4 * 16), 61, 61]
  | [a, b] => [b64tab (a / 4), b64tab (a % 4 * 16 + b / 16), b64tab (b % 16 * 4), 61]
  | a :: b :: c :: rest =>
    b64tab (a / 4) :: b64tab (a % 4 * 16 + b / 16) :: b64tab (b % 16 * 4 + c / 64)
      :: b64tab (c % 64) :: b64encode rest

/-- The accumulator loop of `binascii.a2b_base64` in non-strict mode (what
`base64.b64decode` with `validate=False` runs): characters outside the
alphabet are skipped; a pad character at quad position at least 2 whose run
of consecutive pads completes the quad (position plus pads at least 4) ends
the decode there, discarding the rest of the input, while any other pad is
ignored (the pad run resets on a data character); input ending mid-quad
(position 1, or positions 2–3 without a completing pad) raises
`binascii.Error`, modelled as `none`.  The three state arguments are the quad
position, the leftover-bits accumulator and the consecutive-pad count. -/
def b64loop : List Nat → Nat → Nat → Nat → Option (List Nat)
  | [], quadPos, _, _ => if quadPos = 0 then some [] else none
  | c :: rest, quadPos, leftchar, pads =>
    if c = 61 then
      if 2 ≤ quadPos ∧ 4 ≤ quadPos + (pads + 1) then some []
      else b64loop rest quadPos leftchar (pads + 1)
    else
      match b64untab c with
      | none => b64loop rest quadPos leftchar pads
      | some v =>
        match quadPos with
        | 0 => b64loop rest 1 v 0
        | 1 =>
          (match b64loop rest 2 (v % 16) 0 with
          | some out => some ((leftchar * 4 + v / 16) :: out)
          | none => none)
        | 2 =>
          (match b64loop rest 3 (v % 4) 0 with
          | some out => some ((leftchar * 16 + v / 4) :: out)
          | none => none)
        | _ =>
          (match b64loop rest 0 0 0 with
          | some out => some ((leftchar * 64 + v) :: out)
          | none => none)

/-- Model of Python `base64.b64decode` on a text line (`validate=False`):
non-ASCII input raises `ValueError` before any decoding (`str.encode`),
otherwise `binascii.a2b_base64` runs the non-strict accumulator loop.
`none` models `binascii.Error` / `ValueError`. -/
def b64decode (cs : List Nat) : Option (List Nat) :=
  if cs.any (fun c => 128 ≤ c) then none else b64loop cs 0 0 0

/-! ## Response envelopes and their JSON serialization

`FileInterface` methods return Python dicts (or `None` for an empty filename);
the result is serialized by `json.dumps` in the protocol layer.  `Resp` is the
closed set of return values the backend produces, and `serializeResp` renders
exactly the `json.dumps` text of each (default separators `", "` / `": "`,
`ensure_ascii=True`). -/

inductive Resp where
  | okList (names : List (List Nat))
  | okGet (name dataB64 : List Nat)
  | okUpload (path : List Nat)
  | okDelete
  | errResp (msg : List Nat)
  | nullResp
deriving DecidableEq, Repr

/-- Whether a response is an ERROR envelope. -/
def Resp.isErr : Resp → Bool
  | .errResp _ => true
  | _ => false

/-- Lower-case hex digit code point for `n < 16`. -/
def hexDigitCh (n : Nat) : Nat := if n < 10 then 48 + n else 87 + n

/-- Four hex digits of `n % 65536`. -/
def hex4 (n : Nat) : List Nat :=
  [hexDigitCh (n / 4096 % 16), hexDigitCh (n / 256 % 16), hexDigitCh (n / 16 % 16), hexDigitCh (n % 16)]

/-- A `\uXXXX` JSON escape. -/
def uesc (n : Nat) : List Nat := 92 :: 117 :: hex4 n

/-- `json.dumps` escaping of one character (`ensure_ascii=True`): quote,
backslash and the named control escapes, `\uXXXX` for other controls and for
all non-ASCII characters (surrogate pairs above U+FFFF). -/
def escChar (c : Nat) : List Nat :=
  if c = 34 then [92, 34]
  else if c = 92 then [92, 92]
  else if c = 8 then [92, 98]
  else if c = 9 then [92, 116]
  else if c = 10 then [92, 110]
  else if c = 12 then [92, 102]
  else if c = 13 then [92, 114]
  else if c < 32 then uesc c
  else if c < 128 then [c]
  else if c < 65536 then uesc c
  else uesc (55296 + (c - 65536) / 1024) ++ uesc (56320 + (c - 65536) % 1024)

/-- `json.dumps` escaping of a whole string body. -/
def escStr : List Nat → List Nat
  | [] => []
  | c :: rest => escChar c ++ escStr rest

/-- A serialized JSON string: quote, escaped body, quote. -/
def jstr (s : List Nat) : List Nat := 34 :: (escStr s ++ [34])

/-- Body of a serialized JSON array of strings, after the opening bracket. -/
def jarrBody : List (List Nat) → List Nat
  | [] => [93]
  | [n] => jstr n ++ [93]
  | n :: rest => jstr n ++ (44 :: 32 :: jarrBody rest)

/-- A serialized JSON array of strings (`json.dumps` list rendering). -/
def jarr (ns : List (List Nat)) : List Nat := 91 :: jarrBody ns

/-- `json.dumps` text of each backend result, dict fields in insertion
order as constructed in `src/file_interface.py`. -/
def serializeResp : Resp → List Nat
  | .okList ns => 123 :: (txt "\"status\": \"OK\", \"data\": " ++ jarr ns ++ [125])
  | .okGet n d =>
    123 :: (txt "\"status\": \"OK\", \"data_namafile\": " ++ jstr n
      ++ txt ", \"data_file\": " ++ jstr d ++ [125])
  | .okUpload p =>
    123 :: (txt "\"status\": \"OK\", \"message\": \"File uploaded successfully\", \"data\": "
      ++ (123 :: (txt "\"file_path\": " ++ jstr p ++ [125])) ++ [125])
  | .okDelete => 123 :: (txt "\"status\": \"OK\", \"message\": \"File deleted successfully\"" ++ [125])
  | .errResp m => 123 :: (txt "\"status\": \"ERROR\", \"data\": " ++ jstr m ++ [125])
  | .nullResp => txt "null"

/-- The error envelope built by the `except` clause of `ClientHandler.run`
via the f-string `'{{"status":"ERROR","data":"{err}"}}'`: the message text is
interpolated verbatim, with no JSON escaping. -/
def errEnvelope (msg : List Nat) : List Nat :=
  123 :: (txt "\"status\":\"ERROR\",\"data\":\"" ++ msg ++ [34, 125])

/-! ## A JSON well-formedness checker

Used to state which transmitted texts are well-formed JSON.  It is a direct
decidable rendering of the JSON grammar (RFC 8259) over code-point lists:
values are strings (with the escape rules), `null`/`true`/`false`, numbers
(leading-zero form admitted), arrays and objects; whitespace is allowed
between tokens.  Recursion is bounded by explicit fuel, decremented only when
descending into an object member, an array element, or a further member /
element of the same composite; a document of length `n` needs fewer than
`2 * n + 2` such steps, the fuel `jsonWf` supplies. -/

/-- JSON inter-token whitespace. -/
def skipWs (cs : List Nat) : List Nat :=
  cs.dropWhile (fun c => c == 32 || c == 9 || c == 10 || c == 13)

/-- Hex digit of a `\uXXXX` escape. -/
def jsonHexDigit (c : Nat) : Bool :=
  (48 ≤ c && c ≤ 57) || (97 ≤ c && c ≤ 102) || (65 ≤ c && c ≤ 70)

/-- Consume the remainder of a JSON string after its opening quote, through
the closing quote. -/
def jstrTail : List Nat → Option (List Nat)
  | [] => none
  | c :: rest =>
    if c = 34 then some rest
    else if c = 92 then
      match rest with
      | [] => none
      | e :: rest2 =>
        if e = 34 ∨ e = 92 ∨ e = 47 ∨ e = 98 ∨ e = 102 ∨ e = 110 ∨ e = 114 ∨ e = 116 then
          jstrTail rest2
        else if e = 117 then
          match rest2 with
          | h1 :: h2 :: h3 :: h4 :: rest3 =>
            if jsonHexDigit h1 ∧ jsonHexDigit h2 ∧ jsonHexDigit h3 ∧ jsonHexDigit h4 then
              jstrTail rest3
            else none
          | _ => none
        else none
    else if 32 ≤ c then jstrTail rest
    else none

/-- Consume at least one decimal digit. -/
def jdigit1 (cs : List Nat) : Option (List Nat) :=
  match cs with
  | c :: _ => if 48 ≤ c ∧ c ≤ 57 then some (cs.dropWhile (fun d => 48 ≤ d && d ≤ 57)) else none
  | [] => none

/-- Optional fraction part of a number. -/
def jfrac : List Nat → Option (List Nat)
  | 46 :: rest => jdigit1 rest
  | cs => some cs

/-- Optional exponent part of a number. -/
def jexp : List Nat → Option (List Nat)
  | [] => some []
  | c :: rest =>
    if c = 101 ∨ c = 69 then
      match rest with
      | s :: rest2 => if s = 43 ∨ s = 45 then jdigit1 rest2 else jdigit1 (s :: rest2)
      | [] => none
    else some (c :: rest)

/-- Consume a JSON number. -/
def jnum (cs : List Nat) : Option (List Nat) :=
  let cs1 := match cs with | 45 :: rest => rest | other => other
  match jdigit1 cs1 with
  | none => none
  | some r1 =>
    match jfrac r1 with
    | none => none
    | some r2 => jexp r2

/-- Consume a fixed keyword. -/
def jlit (lit cs : List Nat) : Option (List Nat) :=
  if lit.isPrefixOf cs then some (cs.drop lit.length) else none

/-- Parsing modes: a single value; the members of an object after `{` (the
closing `}` consumed); the elements of a nonempty array after `[` (the
closing `]` consumed). -/
inductive JMode where
  | val
  | pairs
  | items
deriving DecidableEq, Repr

/-- The fueled JSON parser; `none` on exhausted fuel or a grammar
violation. -/
def jparseN : Nat → JMode → List Nat → Option (List Nat)
  | 0, _, _ => none
  | f + 1, .val, cs =>
    match cs with
    | [] => none
    | c :: rest =>
      if c = 34 then jstrTail rest
      else if c = 110 then jlit (txt "ull") rest
      else if c = 116 then jlit (txt "rue") rest
      else if c = 102 then jlit (txt "alse") rest
      else if c = 123 then
        match skipWs rest with
        | 125 :: r2 => some r2
        | cs2 => jparseN f .pairs cs2
      else if c = 91 then
        match skipWs rest with
        | 93 :: r2 => some r2
        | cs2 => jparseN f .items cs2
      else jnum (c :: rest)
  | f + 1, .pairs, cs =>
    match cs with
    | 34 :: rest =>
      match jstrTail rest with
      | none => none
      | some r1 =>
        match skipWs r1 with
        | 58 :: r2 =>
          match jparseN f .val (skipWs r2) with
          | none => none
          | some r3 =>
            match skipWs r3 with
            | 44 :: r4 => jparseN f .pairs (skipWs r4)
            | 125 :: r5 => some r5
            | _ => none
        | _ => none
    | _ => none
  | f + 1, .items, cs =>
    match jparseN f .val cs with
    | none => none
    | some r1 =>
      match skipWs r1 with
      | 44 :: r2 => jparseN f .items (skipWs r2)
      | 93 :: r3 => some r3
      | _ => none

/-- Whether `cs` is one complete well-formed JSON document (value plus
surrounding whitespace). -/
def jsonWf (cs : List Nat) : Bool :=
  match jparseN (2 * cs.length + 2) .val (skipWs cs) with
  | some r => decide (skipWs r = [])
  | none => false

/-! ## `FileInterface` operations (from `src/file_interface.py`) -/

/-- Message of the `IndexError` raised by `params[0]` on an empty list. -/
def idxErrMsg : List Nat := txt "list index out of range"

/-- Message of the `FileNotFoundError` raised by `open`/`os.remove` on a
missing path (text abbreviated from CPython's, which also carries errno and
the quoted filename). -/
def notFoundMsg (f : List Nat) : List Nat := txt "No such file or directory: " ++ f

namespace FileInterface

/-- Whether `glob('*.*')` run in the `files/` working directory reports the
file at resolved path `k`: a direct child of `files/` whose name contains a
dot and does not start with one (glob hides dotfiles from a `*`-leading
pattern). -/
def globEntry (k : List Nat) : Option (List Nat) :=
  if (txt "files/").isPrefixOf k then
    let n := k.drop 6
    if 47 ∉ n ∧ n ≠ [] ∧ n.head? ≠ some 46 ∧ 46 ∈ n then some n else none
  else none

/-- `FileInterface.list`: the names reported by `glob('*.*')`. -/
def globNames (fs : Fs) : List (List Nat) :=
  fs.filterMap fun e => globEntry e.1

/-- Translation of `FileInterface.list`. -/
def list (fs : Fs) (_params : List (List Nat)) : Resp := .okList (globNames fs)

/-- Translation of `FileInterface.get`: `params[0]` (raising `IndexError` when
missing, caught into an ERROR envelope), `return None` on an empty filename,
otherwise open the path as supplied relative to `files/` and base64-encode its
contents; `FileNotFoundError` is caught into an ERROR envelope. -/
def get (fs : Fs) (params : List (List Nat)) : Resp :=
  match params with
  | [] => .errResp idxErrMsg
  | f :: _ =>
    if f = [] then .nullResp
    else
      match fsLookup fs (resolvePath cwdFiles f) with
      | some bs => .okGet f (b64encode bs)
      | none => .errResp (notFoundMsg f)

/-- Translation of `FileInterface.upload`: read the file at `params[0]`, name
it by content hash plus sniffed extension, write it under that name in the
working directory, and return the canonical name. -/
def upload (hash : List Nat → List Nat) (fs : Fs) (params : List (List Nat)) : Resp × Fs :=
  match params with
  | [] => (.errResp idxErrMsg, fs)
  | p :: _ =>
    match fsLookup fs (resolvePath cwdFiles p) with
    | none => (.errResp (notFoundMsg p), fs)
    | some file_bytes =>
      let name := hash file_bytes ++ detect_file_type file_bytes
      (.okUpload name, fsWrite fs (resolvePath cwdFiles name) file_bytes)

/-- Translation of `FileInterface.delete`: `return None` on an empty filename,
otherwise `os.remove` the path as supplied relative to `files/`;
`FileNotFoundError` is caught into an ERROR envelope. -/
def delete (fs : Fs) (params : List (List Nat)) : Resp × Fs :=
  match params with
  | [] => (.errResp idxErrMsg, fs)
  | f :: _ =>
    if f = [] then (.nullResp, fs)
    else
      match fsLookup fs (resolvePath cwdFiles f) with
      | none => (.errResp (notFoundMsg f), fs)
      | some _ => (.okDelete, fsRemove fs (resolvePath cwdFiles f))

end FileInterface

/-- Modelled from the spec: `file_protocol.py` (`FileProtocol.proses_string`)
is imported by `src/file_server.py` but absent from the source tree.  Per the
spec's Command Codec and Request Dispatcher contracts: split the line on
whitespace, the first token is the verb and the rest are positional args; map
`LIST`/`GET`/`DELETE`/`UPLOAD` to the corresponding `FileInterface` operation;
an empty line or unknown verb yields an ERROR envelope naming the verb; the
result dict is rendered as canonical JSON (`json.dumps`). -/
def proses_string (hash : List Nat → List Nat) (fs : Fs) (line : List Nat) : Resp × Fs :=
  match splitWs line with
  | [] => (.errResp (txt "unknown command: "), fs)
  | verb :: params =>
    if verb = txt "LIST" then (FileInterface.list fs params, fs)
    else if verb = txt "GET" then (FileInterface.get fs params, fs)
    else if verb = txt "DELETE" then FileInterface.delete fs params
    else if verb = txt "UPLOAD" then FileInterface.upload hash fs params
    else (.errResp (txt "unknown command: " ++ verb), fs)

/-! ## Connection state machine (`ClientHandler.run` in `src/file_server.py`)

One `Core` holds the per-connection session state other than the text buffer:
the mode flag `uploading`, the temporary-file handle state (`tempPath`,
`tempOpen`, with fresh names drawn from `tmpCtr` standing in for
`tempfile.NamedTemporaryFile(delete=False, dir=TMP_DIR)`), the shared
filesystem, the payloads passed to `conn.sendall`, and a `closed` flag set
when an exception aborts the handler.  `dispatched` and `tempWrites` are
observation-only traces (which lines reached `protocol.proses_string`, which
decoded chunks were written to the temporary file); they influence nothing. -/

structure Core where
  uploading : Bool
  tempPath : Option (List Nat)
  tempOpen : Bool
  tmpCtr : Nat
  fs : Fs
  out : List (List Nat)
  closed : Bool
  completed : Nat
  dispatched : List (List Nat)
  tempWrites : List (List Nat)
deriving DecidableEq, Repr

/-- Fuel-indexed decimal-digit writer (fuel `n + 1` always suffices). -/
def natDigitsN : Nat → Nat → List Nat
  | 0, _ => []
  | f + 1, n => if n < 10 then [48 + n] else natDigitsN f (n / 10) ++ [48 + n % 10]

/-- Decimal digits of a counter, for fresh temporary-file names. -/
def natDigits (n : Nat) : List Nat := natDigitsN (n + 1) n

/-- The fresh temporary path handed out by `tempfile.NamedTemporaryFile` for
the `i`-th upload of the session (`TMP_DIR` is `/tmp`). -/
def tmpName (i : Nat) : List Nat := txt "/tmp/tmp" ++ natDigits i

/-- The protocol terminator `\r\n\r\n` appended by `_send_response`. -/
def crlf2 : List Nat := [13, 10, 13, 10]

/-- `ClientHandler._send_response`: append the terminator to the message and
transmit the whole payload with one `sendall`. -/
def sendResponse (c : Core) (message : List Nat) : Core :=
  { c with out := c.out ++ [message ++ crlf2] }

/-- The plain-text upload handshake acknowledgment. -/
def readyMsg : List Nat := txt "READY TO RECEIVE FILE"

/-- Message of the `binascii.Error` raised by `base64.b64decode` on invalid
data (text abbreviated from CPython's). -/
def b64ErrMsg : List Nat := txt "Invalid base64-encoded string"

/-- Message of the `UnicodeDecodeError` raised by `bytes.decode` (text
abbreviated from CPython's). -/
def utf8ErrMsg : List Nat := txt "utf-8 codec cannot decode byte"

/-- The `except` clause of `ClientHandler.run`: send the f-string error
envelope and leave the receive loop. -/
def closeWithError (c : Core) (msg : List Nat) : Core :=
  { sendResponse c (errEnvelope msg) with closed := true }

/-- Processing of one newline-delimited frame by the body of the inner
`while '\n' in buffer` loop of `ClientHandler.run` (after the frame has been
split off the buffer).  A closed handler processes nothing. -/
def handleLine (hash : List Nat → List Nat) (c : Core) (rawLine : List Nat) : Core :=
  if c.closed then c
  else
    let line := stripWs rawLine
    if c.uploading then
      if line = txt "ENDUPLOAD" then
        let p := c.tempPath.getD []
        let dispatchLine := txt "UPLOAD " ++ p
        let rf := proses_string hash c.fs dispatchLine
        let c1 := { c with
          tempOpen := false,
          fs := rf.2,
          completed := c.completed + 1,
          dispatched := c.dispatched ++ [dispatchLine] }
        let c2 := sendResponse c1 (serializeResp rf.1)
        { c2 with
          fs := fsRemove c2.fs (resolvePath cwdFiles p),
          uploading := false,
          tempPath := none }
      else
        match b64decode line with
        | some bs =>
          { c with
            fs := fsAppend c.fs (resolvePath cwdFiles (c.tempPath.getD [])) bs,
            tempWrites := c.tempWrites ++ [bs] }
        | none => closeWithError c b64ErrMsg
    else
      if (txt "UPLOAD").isPrefixOf line then
        let p := tmpName c.tmpCtr
        let c1 := { c with
          uploading := true,
          tempPath := some p,
          tempOpen := true,
          tmpCtr := c.tmpCtr + 1,
          fs := fsWrite c.fs (resolvePath cwdFiles p) [] }
        sendResponse c1 readyMsg
      else
        let rf := proses_string hash c.fs line
        sendResponse { c with fs := rf.2, dispatched := c.dispatched ++ [line] }
          (serializeResp rf.1)

/-- Fuel-indexed form of the inner `while '\n' in buffer` loop: split off one
frame at a time and process it.  `buf.length` newlines bound the iteration
count, so fuel `buf.length + 1` always suffices (see `drain_eq`). -/
def drainN (hash : List Nat → List Nat) : Nat → Core → List Nat → Core × List Nat
  | 0, c, buf => (c, buf)
  | n + 1, c, buf =>
    match splitNL buf with
    | none => (c, buf)
    | some (l, r) => drainN hash n (handleLine hash c l) r

/-- The inner frame loop: process every complete frame in the buffer, leaving
the residue after the last newline. -/
def drain (hash : List Nat → List Nat) (c : Core) (buf : List Nat) : Core × List Nat :=
  drainN hash (buf.length + 1) c buf

/-- One `recv` delivering text `chunk`: append to the buffer, then process
all complete frames. -/
def feed (hash : List Nat → List Nat) (m : Core × List Nat) (chunk : List Nat) : Core × List Nat :=
  drain hash m.1 (m.2 ++ chunk)

/-- The `finally` clause of `ClientHandler.run`: close the temporary-file
handle if open, and remove the temporary file if its path is set and it still
exists (removing an absent path is a no-op, so the existence test folds in). -/
def finalize (c : Core) : Core :=
  let c1 := { c with tempOpen := false }
  match c.tempPath with
  | some p => { c1 with fs := fsRemove c1.fs (resolvePath cwdFiles p) }
  | none => c1

/-- The outer `recv` loop at text level: each list element is the decoded
text of one `recv`; an empty element is a zero-length read (peer close) and
stops the loop, as does a handler closed by an exception. -/
def loopChars (hash : List Nat → List Nat) (m : Core × List Nat) :
    List (List Nat) → Core × List Nat
  | [] => m
  | ch :: rest =>
    if m.1.closed ∨ ch = [] then m
    else loopChars hash (feed hash m ch) rest

/-- A whole connection at text level: run the `recv` loop from a fresh
session, then the `finally` cleanup. -/
def runChars (hash : List Nat → List Nat) (c₀ : Core) (chunks : List (List Nat)) : Core :=
  finalize (loopChars hash (c₀, []) chunks).1

/-- The fresh session state built at the top of `ClientHandler.run`, over an
initial filesystem. -/
def initCore (fs : Fs) : Core :=
  { uploading := false, tempPath := none, tempOpen := false, tmpCtr := 0,
    fs := fs, out := [], closed := false, completed := 0, dispatched := [],
    tempWrites := [] }

/-! ## UTF-8 (Python `bytes.decode()` / `str.encode()`)

`ClientHandler.run` decodes each `recv` chunk separately with
`data.decode()`, which is strict UTF-8. -/

/-- A Unicode scalar value (what a Python `str` holds after a successful
decode): below the surrogate block or between it and U+110000. -/
def ValidCp (n : Nat) : Prop := n < 55296 ∨ (57344 ≤ n ∧ n < 1114112)

instance (n : Nat) : Decidable (ValidCp n) := by unfold ValidCp; infer_instance

/-- UTF-8 encoding of one scalar value. -/
def utf8Char (n : Nat) : List Nat :=
  if n < 128 then [n]
  else if n < 2048 then [192 + n / 64, 128 + n % 64]
  else if n < 65536 then [224 + n / 4096, 128 + n / 64 % 64, 128 + n % 64]
  else [240 + n / 262144, 128 + n / 4096 % 64, 128 + n / 64 % 64, 128 + n % 64]

/-- UTF-8 encoding of a scalar-value string (`str.encode()`). -/
def utf8Encode : List Nat → List Nat
  | [] => []
  | c :: rest => utf8Char c ++ utf8Encode rest

/-- Whether a byte is a UTF-8 continuation byte. -/
def utf8Cont (b : Nat) : Bool := 128 ≤ b && b ≤ 191

/-- Strict UTF-8 decoding of one scalar value at the head of a byte list,
returning it and the remaining bytes: rejects truncated sequences, bad
continuation bytes, overlong forms, surrogates and values past U+10FFFF. -/
def utf8DecodeOne : List Nat → Option (Nat × List Nat)
  | [] => none
  | b0 :: rest =>
    if b0 < 128 then some (b0, rest)
    else if 194 ≤ b0 ∧ b0 ≤ 223 then
      match rest with
      | b1 :: rest2 =>
        if utf8Cont b1 then some ((b0 - 192) * 64 + (b1 - 128), rest2) else none
      | [] => none
    else if 224 ≤ b0 ∧ b0 ≤ 239 then
      match rest with
      | b1 :: b2 :: rest3 =>
        if utf8Cont b1 ∧ utf8Cont b2 ∧ (b0 = 224 → 160 ≤ b1) ∧ (b0 = 237 → b1 ≤ 159) then
          some ((b0 - 224) * 4096 + (b1 - 128) * 64 + (b2 - 128), rest3)
        else none
      | _ => none
    else if 240 ≤ b0 ∧ b0 ≤ 244 then
      match rest with
      | b1 :: b2 :: b3 :: rest4 =>
        if utf8Cont b1 ∧ utf8Cont b2 ∧ utf8Cont b3
            ∧ (b0 = 240 → 144 ≤ b1) ∧ (b0 = 244 → b1 ≤ 143) then
          some ((b0 - 240) * 262144 + (b1 - 128) * 4096 + (b2 - 128) * 64 + (b3 - 128), rest4)
        else none
      | _ => none
    else none

/-- Fuel-indexed whole-string decoder; each scalar consumes at least one
byte, so fuel `bs.length + 1` always suffices (see `utf8Decode_cons`). -/
def utf8DecodeN : Nat → List Nat → Option (List Nat)
  | 0, bs => match bs with | [] => some [] | _ :: _ => none
  | f + 1, bs =>
    match bs with
    | [] => some []
    | b0 :: rest =>
      match utf8DecodeOne (b0 :: rest) with
      | some (cp, rest2) =>
        match utf8DecodeN f rest2 with
        | some cs => some (cp :: cs)
        | none => none
      | none => none

/-- Strict UTF-8 decoding (`bytes.decode()`); `none` models
`UnicodeDecodeError`. -/
def utf8Decode (bs : List Nat) : Option (List Nat) := utf8DecodeN (bs.length + 1) bs

/-- One `recv` delivering raw bytes: `buffer += data.decode()`, with a failed
decode raising `UnicodeDecodeError` into the `except` clause. -/
def feedBytes (hash : List Nat → List Nat) (m : Core × List Nat) (chunk : List Nat) :
    Core × List Nat :=
  match utf8Decode chunk with
  | some t => feed hash m t
  | none => (closeWithError m.1 utf8ErrMsg, m.2)

/-- The outer `recv` loop at byte level. -/
def loopBytes (hash : List Nat → List Nat) (m : Core × List Nat) :
    List (List Nat) → Core × List Nat
  | [] => m
  | ch :: rest =>
    if m.1.closed ∨ ch = [] then m
    else loopBytes hash (feedBytes hash m ch) rest

/-- A whole connection at byte level: each list element is the byte content
of one `recv`; list end or an empty element is the peer closing. -/
def runBytes (hash : List Nat → List Nat) (c₀ : Core) (chunks : List (List Nat)) : Core :=
  finalize (loopBytes hash (c₀, []) chunks).1

/-- The canonical-storage entries of a filesystem: the resolved paths inside
the `files/` directory. -/
def filesKeys (fs : Fs) : List (List Nat) :=
  (fs.map Prod.fst).filter (fun k => (txt "files/").isPrefixOf k)

/-- Session invariant for the cleanup argument: while no upload has
completed, canonical storage has gained no entry, and any live temporary
path resolves outside the `files/` directory. -/
def SessionInv (fs₀ : Fs) (c : Core) : Prop :=
  (c.completed = 0 → ∀ k, k ∈ filesKeys c.fs → k ∈ filesKeys fs₀)
  ∧ (∀ p, c.tempPath = some p →
      (txt "files/").isPrefixOf (resolvePath cwdFiles p) = false)

/-- A payload the connection handler passes to `conn.sendall`: an envelope
followed by the frame terminator, the envelope being well-formed JSON or the
plain-text upload acknowledgment. -/
def goodPayload (o : List Nat) : Prop :=
  ∃ e, o = e ++ crlf2 ∧ (jsonWf e = true ∨ e = readyMsg)

/-! ## Shared fixtures and helper lemmas -/

/-- A concrete stand-in for the MD5 hex digest in witnesses: nonempty, and
made only of lower-case letters (so, like a hex digest, free of `.` and
`/`). -/
def testHash (bs : List Nat) : List Nat := 104 :: bs.map (fun b => 97 + b % 26)

/-- A concrete mid-upload session state used by witnesses. -/
def upCore : Core :=
  { uploading := true, tempPath := some (txt "/tmp/tmp0"), tempOpen := true,
    tmpCtr := 1, fs := [(txt "tmp/tmp0", [])], out := [readyMsg ++ crlf2],
    closed := false, completed := 0, dispatched := [], tempWrites := [] }

/-- A concrete command-mode session state used by witnesses. -/
def cmdCore : Core := initCore [(txt "files/a.txt", [1, 2, 3])]

theorem head_of_isPrefixOf {p s : List Nat} (h : p.isPrefixOf s = true)
    (a : Nat) (ha : p.head? = some a) : s.head? = some a := by
  obtain ⟨t, rfl⟩ := List.isPrefixOf_iff_prefix.mp h
  cases p with
  | nil => cases ha
  | cons x xs => cases ha; rfl

theorem sendResponse_uploading (c : Core) (m : List Nat) :
    (sendResponse c m).uploading = c.uploading := rfl

/-! ## Claim C2: mode exclusivity and mode-local processing -/

/-- Claim C2: a session is in exactly one mode (the Boolean `uploading`), and
only the mode-switching frames change it.  In `UPLOADING` mode every frame
other than the exact `ENDUPLOAD` sentinel is never dispatched as a command,
leaves the session in `UPLOADING` mode, and — when it decodes — is appended
to the temporary file.  In `COMMAND` mode no frame is written to a temporary
file, the mode flips exactly on frames starting with `UPLOAD`, and `LIST`,
`GET` and `DELETE` frames leave the mode unchanged. -/
theorem claim_C2 (hash : List Nat → List Nat) (c : Core) (l : List Nat)
    (hOpen : c.closed = false) :
    (c.uploading = true → stripWs l ≠ txt "ENDUPLOAD" →
      (handleLine hash c l).dispatched = c.dispatched ∧
      (handleLine hash c l).uploading = true ∧
      ∀ bs, b64decode (stripWs l) = some bs →
        (handleLine hash c l).tempWrites = c.tempWrites ++ [bs] ∧
        (handleLine hash c l).fs
          = fsAppend c.fs (resolvePath cwdFiles (c.tempPath.getD [])) bs)
    ∧ (c.uploading = false →
      (handleLine hash c l).tempWrites = c.tempWrites ∧
      ((handleLine hash c l).uploading = true
        ↔ (txt "UPLOAD").isPrefixOf (stripWs l) = true) ∧
      (((txt "LIST").isPrefixOf (stripWs l) = true
          ∨ (txt "GET").isPrefixOf (stripWs l) = true
          ∨ (txt "DELETE").isPrefixOf (stripWs l) = true) →
        (handleLine hash c l).uploading = false)) := by
  constructor
  · intro hUp hNE
    unfold handleLine
    rw [hOpen, hUp]
    simp only [Bool.false_eq_true, if_false, if_true]
    rw [if_neg hNE]
    match hDec : b64decode (stripWs l) with
    | some bs =>
      refine ⟨rfl, rfl, ?_⟩
      intro bs2 hbs2
      cases hbs2
      exact ⟨rfl, rfl⟩
    | none =>
      refine ⟨rfl, ?_, ?_⟩
      · simp [closeWithError, sendResponse, hUp]
      · intro bs2 hbs2
        cases hbs2
  · intro hCmd
    unfold handleLine
    rw [hOpen, hCmd]
    simp only [Bool.false_eq_true, if_false]
    by_cases hPre : (txt "UPLOAD").isPrefixOf (stripWs l) = true
    · rw [if_pos hPre]
      refine ⟨rfl, ?_, ?_⟩
      · simp [sendResponse, hPre]
      · intro hOther
        exfalso
        have hU := head_of_isPrefixOf hPre 85 (by decide)
        rcases hOther with h | h | h
        · have hh := head_of_isPrefixOf h 76 (by decide)
          rw [hU] at hh
          exact absurd hh (by decide)
        · have hh := head_of_isPrefixOf h 71 (by decide)
          rw [hU] at hh
          exact absurd hh (by decide)
        · have hh := head_of_isPrefixOf h 68 (by decide)
          rw [hU] at hh
          exact absurd hh (by decide)
    · rw [if_neg hPre]
      refine ⟨rfl, ?_, fun _ => rfl⟩
      constructor
      · intro h
        simp only [sendResponse] at h
        cases h
      · intro h
        exact absurd h hPre

/-- Witness for C2 at a concrete session: in `UPLOADING` mode a frame that
textually looks like a command (`GET x`, which happens to decode as base64
after filtering) is appended to the temporary file and never dispatched; in
`COMMAND` mode a `LIST` frame writes nothing and keeps `COMMAND` mode. -/
theorem claim_C2_witness :
    ((handleLine testHash upCore (txt "GET x")).dispatched = upCore.dispatched
      ∧ (handleLine testHash upCore (txt "GET x")).uploading = true)
    ∧ ((handleLine testHash cmdCore (txt "LIST")).tempWrites = cmdCore.tempWrites
      ∧ (handleLine testHash cmdCore (txt "LIST")).uploading = false) := by
  have h1 := claim_C2 testHash upCore (txt "GET x") rfl
  have h2 := claim_C2 testHash cmdCore (txt "LIST") rfl
  exact ⟨⟨(h1.1 rfl (by decide)).1, (h1.1 rfl (by decide)).2.1⟩,
    (h2.2 rfl).1, (h2.2 rfl).2.2 (Or.inl (by decide))⟩

/-! ## Claim C3: the upload handshake reply -/

/-- Counterexample to claim C3 as stated: on a bare `UPLOAD` frame the single
payload passed to `sendall` is `READY TO RECEIVE FILE` followed by
`\r\n\r\n` — `_send_response` appends the terminator to the handshake reply
exactly as to every other response, so it is not "sent without the
`\r\n\r\n` terminator". -/
theorem claim_C3_counterexample :
    (runChars testHash (initCore []) [txt "UPLOAD\n"]).out
      = [readyMsg ++ crlf2]
    ∧ readyMsg ++ crlf2 ≠ readyMsg := by decide

/-- Claim C3 as amended: on a command-mode frame beginning with `UPLOAD` the
server replies with the plain-text acknowledgment `READY TO RECEIVE FILE`,
sent through the same `_send_response` path as every other reply and hence
*with* the `\r\n\r\n` terminator; it differs from the envelope responses only
in not being the serialization of any envelope. -/
theorem claim_C3 (hash : List Nat → List Nat) (c : Core) (l : List Nat)
    (hOpen : c.closed = false) (hCmd : c.uploading = false)
    (hPre : (txt "UPLOAD").isPrefixOf (stripWs l) = true) :
    (handleLine hash c l).out = c.out ++ [readyMsg ++ crlf2]
    ∧ ∀ r : Resp, readyMsg ≠ serializeResp r := by
  constructor
  · unfold handleLine
    rw [hOpen, hCmd]
    simp only [Bool.false_eq_true, if_false]
    rw [if_pos hPre]
    rfl
  · intro r h
    have hh : readyMsg.head? = (serializeResp r).head? := by rw [h]
    cases r <;> simp [readyMsg, serializeResp, txt] at hh

/-- Witness for C3 at a concrete session and frame. -/
theorem claim_C3_witness :
    (handleLine testHash cmdCore (txt "UPLOAD")).out
        = cmdCore.out ++ [readyMsg ++ crlf2]
    ∧ readyMsg ≠ serializeResp (.okList []) := by
  have h := claim_C3 testHash cmdCore (txt "UPLOAD") rfl rfl (by decide)
  exact ⟨h.1, h.2 (.okList [])⟩

/-! ## Claim C5: invalid base64 during upload aborts the connection -/

/-- Claim C5: in `UPLOADING` mode, a frame that is not the `ENDUPLOAD`
sentinel and does not base64-decode closes the handler with the f-string
error envelope, leaves the filesystem (including the temporary file)
untouched, writes nothing to the temporary file, and no further frame is
processed on the connection. -/
theorem claim_C5 (hash : List Nat → List Nat) (c : Core) (l : List Nat)
    (hOpen : c.closed = false) (hUp : c.uploading = true)
    (hNE : stripWs l ≠ txt "ENDUPLOAD")
    (hDec : b64decode (stripWs l) = none) :
    (handleLine hash c l).closed = true
    ∧ (handleLine hash c l).out = c.out ++ [errEnvelope b64ErrMsg ++ crlf2]
    ∧ (handleLine hash c l).fs = c.fs
    ∧ (handleLine hash c l).tempWrites = c.tempWrites
    ∧ ∀ l2, handleLine hash (handleLine hash c l) l2 = handleLine hash c l := by
  have hstep : handleLine hash c l = closeWithError c b64ErrMsg := by
    unfold handleLine
    rw [hOpen, hUp]
    simp only [Bool.false_eq_true, if_false, if_true]
    rw [if_neg hNE, hDec]
  rw [hstep]
  refine ⟨rfl, rfl, rfl, rfl, ?_⟩
  intro l2
  unfold handleLine
  rw [show (closeWithError c b64ErrMsg).closed = true from rfl]
  simp

/-- Witness for C5: the frame `ab` (two base64 data characters, which
`b64decode` rejects for incorrect padding) aborts a concrete mid-upload
session. -/
theorem claim_C5_witness :
    (handleLine testHash upCore (txt "ab")).closed = true
    ∧ (handleLine testHash upCore (txt "ab")).out
        = upCore.out ++ [errEnvelope b64ErrMsg ++ crlf2]
    ∧ (handleLine testHash upCore (txt "ab")).fs = upCore.fs := by
  have h := claim_C5 testHash upCore (txt "ab") rfl rfl (by decide) (by decide)
  exact ⟨h.1, h.2.1, h.2.2.1⟩

/-! ## Claim C8: GET error paths -/

/-- Counterexample to claim C8 as stated: `FileInterface.get` with an *empty*
filename argument does not return an ERROR envelope — it returns `None`
(`return None` in `src/file_interface.py`), which the protocol layer
serializes as JSON `null`. -/
theorem claim_C8_counterexample :
    FileInterface.get [] [[]] = Resp.nullResp
    ∧ Resp.nullResp.isErr = false := by decide

/-- Claim C8 as amended: a `GET` with a *missing* filename argument returns
the `IndexError` ERROR envelope; with an *empty* filename argument it returns
`None` (serialized as JSON `null`); and a `GET` naming a file absent from
storage returns an ERROR envelope carrying the backend's message.  In all
three cases storage is untouched (`FileInterface.get` never modifies the
filesystem — it returns only a response). -/
theorem claim_C8 (fs : Fs) (f : List Nat) (h1 : f ≠ [])
    (h2 : fsLookup fs (resolvePath cwdFiles f) = none) :
    FileInterface.get fs [] = .errResp idxErrMsg
    ∧ FileInterface.get fs [[]] = .nullResp
    ∧ FileInterface.get fs [f] = .errResp (notFoundMsg f) := by
  refine ⟨rfl, rfl, ?_⟩
  simp only [FileInterface.get]
  rw [if_neg h1, h2]

/-- Witness for C8 at a concrete store and filename. -/
theorem claim_C8_witness :
    FileInterface.get [(txt "files/a.txt", [1, 2, 3])] [] = .errResp idxErrMsg
    ∧ FileInterface.get [(txt "files/a.txt", [1, 2, 3])] [txt "b.txt"]
        = .errResp (notFoundMsg (txt "b.txt")) := by
  have h := claim_C8 [(txt "files/a.txt", [1, 2, 3])] (txt "b.txt")
    (by decide) (by decide)
  exact ⟨h.1, h.2.2⟩

/-! ## Claim C10: no path sanitization in the storage backend -/

/-- Claim C10: the backend opens (`get`) and removes (`delete`) the filename
exactly as supplied, resolved against the `files/` working directory with no
validation; consequently the concrete input `../secret.txt` resolves to
`secret.txt`, outside the storage directory, which `GET` reads and `DELETE`
removes. -/
theorem claim_C10 :
    (∀ (fs : Fs) (f : List Nat) rest, f ≠ [] →
      FileInterface.get fs (f :: rest)
        = match fsLookup fs (resolvePath cwdFiles f) with
          | some bs => Resp.okGet f (b64encode bs)
          | none => Resp.errResp (notFoundMsg f))
    ∧ resolvePath cwdFiles (txt "../secret.txt") = txt "secret.txt"
    ∧ (txt "files/").isPrefixOf (txt "secret.txt") = false
    ∧ FileInterface.get [(txt "secret.txt", [5, 6, 7])] [txt "../secret.txt"]
        = Resp.okGet (txt "../secret.txt") (b64encode [5, 6, 7])
    ∧ FileInterface.delete [(txt "secret.txt", [5, 6, 7])] [txt "../secret.txt"]
        = (Resp.okDelete, []) := by
  refine ⟨?_, by decide, by decide, by decide, by decide⟩
  intro fs f rest h1
  simp only [FileInterface.get]
  rw [if_neg h1]

/-- Witness for C10: the quantified description of `get` evaluated at a
concrete store and traversal filename. -/
theorem claim_C10_witness :
    FileInterface.get [(txt "secret.txt", [5, 6, 7])] [txt "../secret.txt", txt "x"]
      = Resp.okGet (txt "../secret.txt") (b64encode [5, 6, 7]) := by
  have h := claim_C10.1 [(txt "secret.txt", [5, 6, 7])] (txt "../secret.txt")
    [txt "x"] (by decide)
  rw [h]
  decide

/-! ## base64 round-trip -/

theorem b64untab_b64tab : ∀ v : Nat, v < 64 → b64untab (b64tab v) = some v := by decide

theorem b64tab_lt128 : ∀ v : Nat, v < 64 → b64tab v < 128 := by decide

theorem b64tab_ne61 : ∀ v : Nat, v < 64 → b64tab v ≠ 61 := by decide

theorem b64loop_cons (c : Nat) (rest : List Nat) (quadPos leftchar pads : Nat) :
    b64loop (c :: rest) quadPos leftchar pads
      = if c = 61 then
          (if 2 ≤ quadPos ∧ 4 ≤ quadPos + (pads + 1) then some []
           else b64loop rest quadPos leftchar (pads + 1))
        else
          (match b64untab c with
          | none => b64loop rest quadPos leftchar pads
          | some v =>
            match quadPos with
            | 0 => b64loop rest 1 v 0
            | 1 =>
              (match b64loop rest 2 (v % 16) 0 with
              | some out => some ((leftchar * 4 + v / 16) :: out)
              | none => none)
            | 2 =>
              (match b64loop rest 3 (v % 4) 0 with
              | some out => some ((leftchar * 16 + v / 4) :: out)
              | none => none)
            | _ =>
              (match b64loop rest 0 0 0 with
              | some out => some ((leftchar * 64 + v) :: out)
              | none => none)) := by
  conv_lhs => rw [b64loop.eq_def]

theorem b64loop_data0 (v : Nat) (hv : v < 64) (rest : List Nat) (lc pads : Nat) :
    b64loop (b64tab v :: rest) 0 lc pads = b64loop rest 1 v 0 := by
  rw [b64loop_cons, if_neg (b64tab_ne61 v hv), b64untab_b64tab v hv]

theorem b64loop_data1 (v : Nat) (hv : v < 64) (rest : List Nat) (lc pads : Nat) :
    b64loop (b64tab v :: rest) 1 lc pads
      = (match b64loop rest 2 (v % 16) 0 with
        | some out => some ((lc * 4 + v / 16) :: out)
        | none => none) := by
  rw [b64loop_cons, if_neg (b64tab_ne61 v hv), b64untab_b64tab v hv]

theorem b64loop_data2 (v : Nat) (hv : v < 64) (rest : List Nat) (lc pads : Nat) :
    b64loop (b64tab v :: rest) 2 lc pads
      = (match b64loop rest 3 (v % 4) 0 with
        | some out => some ((lc * 16 + v / 4) :: out)
        | none => none) := by
  rw [b64loop_cons, if_neg (b64tab_ne61 v hv), b64untab_b64tab v hv]

theorem b64loop_data3 (v : Nat) (hv : v < 64) (rest : List Nat) (lc pads : Nat) :
    b64loop (b64tab v :: rest) 3 lc pads
      = (match b64loop rest 0 0 0 with
        | some out => some ((lc * 64 + v) :: out)
        | none => none) := by
  rw [b64loop_cons, if_neg (b64tab_ne61 v hv), b64untab_b64tab v hv]

theorem b64loop_pad_skip (rest : List Nat) (quadPos lc pads : Nat)
    (h : ¬(2 ≤ quadPos ∧ 4 ≤ quadPos + (pads + 1))) :
    b64loop (61 :: rest) quadPos lc pads = b64loop rest quadPos lc (pads + 1) := by
  rw [b64loop_cons, if_pos rfl, if_neg h]

theorem b64loop_pad_done (rest : List Nat) (quadPos lc pads : Nat)
    (h : 2 ≤ quadPos ∧ 4 ≤ quadPos + (pads + 1)) :
    b64loop (61 :: rest) quadPos lc pads = some [] := by
  rw [b64loop_cons, if_pos rfl, if_pos h]

/-- Every character `b64encode` emits is ASCII. -/
theorem b64encode_lt128 : ∀ B : List Nat, (∀ b ∈ B, b < 256) →
    ∀ x ∈ b64encode B, x < 128
  | [], _, _, hx => by cases hx
  | [a], hB, x, hx => by
    have ha : a < 256 := hB a (by simp)
    have h1 : a / 4 < 64 := by omega
    have h2 : a % 4 * 16 < 64 := by omega
    have hx2 : x ∈ [b64tab (a / 4), b64tab (a % 4 * 16), 61, 61] := hx
    simp only [List.mem_cons, List.not_mem_nil, or_false] at hx2
    rcases hx2 with rfl | rfl | rfl | rfl
    · exact b64tab_lt128 _ h1
    · exact b64tab_lt128 _ h2
    · decide
    · decide
  | [a, b], hB, x, hx => by
    have ha : a < 256 := hB a (by simp)
    have hb : b < 256 := hB b (by simp)
    have h1 : a / 4 < 64 := by omega
    have h2 : a % 4 * 16 + b / 16 < 64 := by omega
    have h3 : b % 16 * 4 < 64 := by omega
    have hx2 : x ∈ [b64tab (a / 4), b64tab (a % 4 * 16 + b / 16), b64tab (b % 16 * 4), 61] := hx
    simp only [List.mem_cons, List.not_mem_nil, or_false] at hx2
    rcases hx2 with rfl | rfl | rfl | rfl
    · exact b64tab_lt128 _ h1
    · exact b64tab_lt128 _ h2
    · exact b64tab_lt128 _ h3
    · decide
  | a :: b :: c :: rest, hB, x, hx => by
    have ha : a < 256 := hB a (by simp)
    have hb : b < 256 := hB b (by simp)
    have hc : c < 256 := hB c (by simp)
    have h1 : a / 4 < 64 := by omega
    have h2 : a % 4 * 16 + b / 16 < 64 := by omega
    have h3 : b % 16 * 4 + c / 64 < 64 := by omega
    have h4 : c % 64 < 64 := by omega
    have hx2 : x ∈ b64tab (a / 4) :: b64tab (a % 4 * 16 + b / 16)
        :: b64tab (b % 16 * 4 + c / 64) :: b64tab (c % 64) :: b64encode rest := hx
    simp only [List.mem_cons] at hx2
    rcases hx2 with rfl | rfl | rfl | rfl | h
    · exact b64tab_lt128 _ h1
    · exact b64tab_lt128 _ h2
    · exact b64tab_lt128 _ h3
    · exact b64tab_lt128 _ h4
    · exact b64encode_lt128 rest (fun y hy => hB y (by simp [hy])) x h

/-- Running the decoder loop on an encoded byte list recovers the bytes:
each full quad emits its three bytes, a final `==` or `=` pad run completes
the last quad and ends the decode. -/
theorem b64loop_encode : ∀ B : List Nat, (∀ b ∈ B, b < 256) →
    b64loop (b64encode B) 0 0 0 = some B
  | [], _ => rfl
  | [a], hB => by
    have ha : a < 256 := hB a (by simp)
    have h1 : a / 4 < 64 := by omega
    have h2 : a % 4 * 16 < 64 := by omega
    have e1 : a / 4 * 4 + a % 4 * 16 / 16 = a := by omega
    show b64loop [b64tab (a / 4), b64tab (a % 4 * 16), 61, 61] 0 0 0 = some [a]
    rw [b64loop_data0 _ h1, b64loop_data1 _ h2,
      b64loop_pad_skip _ _ _ _ (by omega), b64loop_pad_done _ _ _ _ (by omega), e1]
  | [a, b], hB => by
    have ha : a < 256 := hB a (by simp)
    have hb : b < 256 := hB b (by simp)
    have h1 : a / 4 < 64 := by omega
    have h2 : a % 4 * 16 + b / 16 < 64 := by omega
    have h3 : b % 16 * 4 < 64 := by omega
    have e1 : a / 4 * 4 + (a % 4 * 16 + b / 16) / 16 = a := by omega
    have e2 : (a % 4 * 16 + b / 16) % 16 * 16 + b % 16 * 4 / 4 = b := by omega
    show b64loop [b64tab (a / 4), b64tab (a % 4 * 16 + b / 16), b64tab (b % 16 * 4), 61]
      0 0 0 = some [a, b]
    rw [b64loop_data0 _ h1, b64loop_data1 _ h2, b64loop_data2 _ h3,
      b64loop_pad_done _ _ _ _ (by omega), e1, e2]
  | a :: b :: c :: rest, hB => by
    have ha : a < 256 := hB a (by simp)
    have hb : b < 256 := hB b (by simp)
    have hc : c < 256 := hB c (by simp)
    have h1 : a / 4 < 64 := by omega
    have h2 : a % 4 * 16 + b / 16 < 64 := by omega
    have h3 : b % 16 * 4 + c / 64 < 64 := by omega
    have h4 : c % 64 < 64 := by omega
    have e1 : a / 4 * 4 + (a % 4 * 16 + b / 16) / 16 = a := by omega
    have e2 : (a % 4 * 16 + b / 16) % 16 * 16 + (b % 16 * 4 + c / 64) / 4 = b := by omega
    have e3 : (b % 16 * 4 + c / 64) % 4 * 64 + c % 64 = c := by omega
    show b64loop (b64tab (a / 4) :: b64tab (a % 4 * 16 + b / 16)
      :: b64tab (b % 16 * 4 + c / 64) :: b64tab (c % 64) :: b64encode rest) 0 0 0
      = some (a :: b :: c :: rest)
    rw [b64loop_data0 _ h1, b64loop_data1 _ h2, b64loop_data2 _ h3, b64loop_data3 _ h4,
      b64loop_encode rest (fun y hy => hB y (by simp [hy])), e1, e2, e3]

/-- Round-trip: `b64decode` inverts `b64encode` on byte lists. -/
theorem b64decode_b64encode (B : List Nat) (hB : ∀ b ∈ B, b < 256) :
    b64decode (b64encode B) = some B := by
  unfold b64decode
  have hAny : (b64encode B).any (fun c => decide (128 ≤ c)) = false := by
    simp only [List.any_eq_false]
    intro x hx
    simpa using Nat.not_le.mpr (b64encode_lt128 B hB x hx)
  rw [hAny]
  simp only [Bool.false_eq_true, if_false]
  exact b64loop_encode B hB

/-! ## Claim C6: upload / GET round-trip -/

theorem fsLookup_fsWrite_self (fs : Fs) (k v : List Nat) :
    fsLookup (fsWrite fs k v) k = some v := by
  unfold fsWrite
  induction fs with
  | nil => simp [fsLookup]
  | cons e rest ih =>
    by_cases h : e.1 = k
    · simpa [fsRemove, h] using ih
    · simpa [fsRemove, h, fsLookup] using ih

/-- Claim C6: storing bytes `B` (completing an upload of a temporary file
holding `B`) returns the canonical content-addressed filename, and a `GET` of
that filename against the updated store returns a base64 payload that decodes
back to exactly `B`. -/
theorem claim_C6 (hash : List Nat → List Nat) (fs : Fs) (p B : List Nat)
    (hp : fsLookup fs (resolvePath cwdFiles p) = some B)
    (hBb : ∀ b ∈ B, b < 256)
    (hname : hash B ++ detect_file_type B ≠ []) :
    FileInterface.upload hash fs [p]
      = (.okUpload (hash B ++ detect_file_type B),
         fsWrite fs (resolvePath cwdFiles (hash B ++ detect_file_type B)) B)
    ∧ FileInterface.get
        (fsWrite fs (resolvePath cwdFiles (hash B ++ detect_file_type B)) B)
        [hash B ++ detect_file_type B]
      = .okGet (hash B ++ detect_file_type B) (b64encode B)
    ∧ b64decode (b64encode B) = some B := by
  refine ⟨?_, ?_, b64decode_b64encode B hBb⟩
  · simp only [FileInterface.upload]
    rw [hp]
  · simp only [FileInterface.get]
    rw [if_neg hname, fsLookup_fsWrite_self]

/-- Witness for C6: uploading the two bytes of `"hi"` from a concrete
temporary file and fetching the returned name round-trips. -/
theorem claim_C6_witness :
    FileInterface.upload testHash [(txt "tmp/t0", [104, 105])] [txt "/tmp/t0"]
      = (.okUpload (testHash [104, 105]),
         fsWrite [(txt "tmp/t0", [104, 105])]
           (resolvePath cwdFiles (testHash [104, 105])) [104, 105])
    ∧ b64decode (b64encode [104, 105]) = some [104, 105] := by
  have h := claim_C6 testHash [(txt "tmp/t0", [104, 105])] (txt "/tmp/t0") [104, 105]
    (by decide) (by decide) (by decide)
  refine ⟨?_, h.2.2⟩
  have h1 := h.1
  rwa [show detect_file_type [104, 105] = [] from rfl, List.append_nil] at h1

/-! ## Claim C7: upload idempotence and LIST visibility -/

theorem splitSlash_no47 : ∀ n : List Nat, 47 ∉ n → splitSlash n = [n]
  | [], _ => rfl
  | c :: rest, h => by
    have hc : c ≠ 47 := fun hc => h (hc ▸ List.mem_cons_self c rest)
    have hr := splitSlash_no47 rest (fun hm => h (List.mem_cons_of_mem c hm))
    simp only [splitSlash, if_neg hc, hr]

/-- A plain filename (no slash, nonempty, not dot-led) resolves to a direct
child of the `files/` directory. -/
theorem resolvePath_plain (n : List Nat) (h47 : 47 ∉ n) (hne : n ≠ [])
    (hh : n.head? ≠ some 46) :
    resolvePath cwdFiles n = txt "files/" ++ n := by
  have habs : n.head? ≠ some 47 := by
    intro h
    cases n with
    | nil => cases h
    | cons a t => cases h; exact h47 (List.mem_cons_self _ _)
  have hn1 : ¬(n = [] ∨ n = [46]) := by
    rintro (rfl | rfl)
    · exact hne rfl
    · exact hh rfl
  have hn2 : n ≠ [46, 46] := by
    rintro rfl
    exact hh rfl
  unfold resolvePath
  rw [if_neg habs, splitSlash_no47 n h47]
  show joinSlash (normSegs [] (splitSlash cwdFiles ++ [n])) = _
  rw [show splitSlash cwdFiles = [cwdFiles] from rfl]
  show joinSlash (normSegs [] (cwdFiles :: [n])) = _
  rw [show normSegs [] (cwdFiles :: [n]) = normSegs [cwdFiles] [n] from rfl]
  unfold normSegs
  rw [if_neg hn1, if_neg hn2]
  show joinSlash [cwdFiles, n] = _
  simp [joinSlash, List.intercalate, List.intersperse, txt, cwdFiles]

theorem drop6_files (n : List Nat) : (txt "files/" ++ n).drop 6 = n := by
  have h6 : (txt "files/").length = 6 := rfl
  rw [← h6, List.drop_left]

theorem isPrefixOf_files (n : List Nat) :
    (txt "files/").isPrefixOf (txt "files/" ++ n) = true :=
  List.isPrefixOf_iff_prefix.mpr ⟨n, rfl⟩

/-- An entry reported by the glob determines its path. -/
theorem FileInterface.globEntry_eq_some {k n2 : List Nat} (h : FileInterface.globEntry k = some n2) :
    k = txt "files/" ++ n2 := by
  unfold FileInterface.globEntry at h
  by_cases hpre : (txt "files/").isPrefixOf k = true
  · rw [if_pos hpre] at h
    have hdrop : k.drop 6 = n2 := by
      by_cases hcond : 47 ∉ k.drop 6 ∧ k.drop 6 ≠ [] ∧ (k.drop 6).head? ≠ some 46
          ∧ 46 ∈ k.drop 6
      · simp only [if_pos hcond] at h
        exact Option.some.inj h
      · simp only [if_neg hcond] at h
        cases h
    obtain ⟨t, rfl⟩ := List.isPrefixOf_iff_prefix.mp hpre
    rw [drop6_files] at hdrop
    rw [hdrop]
  · rw [if_neg hpre] at h
    cases h

/-- After removing `files/<n>`, no glob entry equals `n`. -/
theorem count_globNames_fsRemove (n : List Nat) : ∀ fs : Fs,
    List.count n (FileInterface.globNames (fsRemove fs (txt "files/" ++ n))) = 0
  | [] => rfl
  | (k2, v) :: rest => by
    have hrest := count_globNames_fsRemove n rest
    by_cases hk : k2 = txt "files/" ++ n
    · simp only [fsRemove, if_pos hk]
      exact hrest
    · simp only [fsRemove, if_neg hk]
      unfold FileInterface.globNames
      rw [List.filterMap_cons]
      unfold FileInterface.globNames at hrest
      cases hmatch : FileInterface.globEntry (k2, v).1 with
      | none => exact hrest
      | some n2 =>
        show List.count n (n2 :: List.filterMap
          (fun e => FileInterface.globEntry e.1) (fsRemove rest (txt "files/" ++ n))) = 0
        rw [List.count_cons]
        have hn2 : n2 ≠ n := by
          intro heq
          have hgk : k2 = txt "files/" ++ n2 := FileInterface.globEntry_eq_some hmatch
          exact hk (by rw [hgk, heq])
        rw [if_neg (fun h : (n2 == n) = true => hn2 (by simpa using h))]
        simpa using hrest

theorem globNames_append (l1 l2 : Fs) :
    FileInterface.globNames (l1 ++ l2)
      = FileInterface.globNames l1 ++ FileInterface.globNames l2 := by
  unfold FileInterface.globNames
  exact List.filterMap_append l1 l2 _

/-- Glob listing of a freshly written `files/<n>`: visible exactly when `n`
contains a dot. -/
theorem globNames_singleton (n B : List Nat) (h47 : 47 ∉ n) (hne : n ≠ [])
    (hh : n.head? ≠ some 46) :
    FileInterface.globNames [(txt "files/" ++ n, B)]
      = if 46 ∈ n then [n] else [] := by
  have he : FileInterface.globEntry (txt "files/" ++ n) = if 46 ∈ n then some n else none := by
    unfold FileInterface.globEntry
    rw [if_pos (isPrefixOf_files n)]
    simp only [drop6_files]
    by_cases h46 : 46 ∈ n
    · rw [if_pos ⟨h47, hne, hh, h46⟩, if_pos h46]
    · rw [if_neg (fun hcond => h46 hcond.2.2.2), if_neg h46]
  unfold FileInterface.globNames
  rw [List.filterMap_cons]
  have hred : FileInterface.globEntry (txt "files/" ++ n, B).1
      = FileInterface.globEntry (txt "files/" ++ n) := rfl
  rw [hred, he]
  by_cases h46 : 46 ∈ n
  · rw [if_pos h46, if_pos h46]
    rfl
  · rw [if_neg h46, if_neg h46]
    rfl

/-- Counterexample to claim C7 as stated: uploading the bytes of `"hi"`
(no recognised header, so no sniffed extension) twice yields the same
canonical filename both times, but a subsequent `LIST` contains that filename
zero times, not exactly once — `glob('*.*')` never matches the dotless
name. -/
theorem claim_C7_counterexample :
    (FileInterface.upload testHash [(txt "tmp/t0", [104, 105])] [txt "/tmp/t0"]).1
      = .okUpload (testHash [104, 105])
    ∧ (FileInterface.upload testHash
        (FileInterface.upload testHash [(txt "tmp/t0", [104, 105])] [txt "/tmp/t0"]).2
        [txt "/tmp/t0"]).1
      = .okUpload (testHash [104, 105])
    ∧ List.count (testHash [104, 105])
        (FileInterface.globNames (FileInterface.upload testHash
          (FileInterface.upload testHash [(txt "tmp/t0", [104, 105])] [txt "/tmp/t0"]).2
          [txt "/tmp/t0"]).2) = 0
    ∧ (0 : Nat) ≠ 1 := by decide

/-- Claim C7 as amended: uploading the same bytes `B` twice yields the same
canonical filename both times (content addressing, with the second write
replacing the first), and a `LIST` issued after the uploads contains that
filename exactly once when the sniffed extension is nonempty — for bytes with
no recognised header the stored name has no dot, `glob('*.*')` omits it, and
the count is zero.  The hypotheses on `hash` hold of an MD5 hex digest:
nonempty and free of `.` and `/`. -/
theorem claim_C7 (hash : List Nat → List Nat) (fs : Fs) (p1 p2 B : List Nat)
    (h1 : fsLookup fs (resolvePath cwdFiles p1) = some B)
    (h2 : fsLookup (FileInterface.upload hash fs [p1]).2 (resolvePath cwdFiles p2)
      = some B)
    (hne : hash B ≠ []) (h46 : 46 ∉ hash B) (h47 : 47 ∉ hash B) :
    (FileInterface.upload hash fs [p1]).1
      = .okUpload (hash B ++ detect_file_type B)
    ∧ (FileInterface.upload hash (FileInterface.upload hash fs [p1]).2 [p2]).1
      = .okUpload (hash B ++ detect_file_type B)
    ∧ FileInterface.list
        (FileInterface.upload hash (FileInterface.upload hash fs [p1]).2 [p2]).2 []
      = .okList (FileInterface.globNames
          (FileInterface.upload hash (FileInterface.upload hash fs [p1]).2 [p2]).2)
    ∧ (detect_file_type B ≠ [] →
        List.count (hash B ++ detect_file_type B)
          (FileInterface.globNames
            (FileInterface.upload hash (FileInterface.upload hash fs [p1]).2 [p2]).2) = 1)
    ∧ (detect_file_type B = [] →
        List.count (hash B ++ detect_file_type B)
          (FileInterface.globNames
            (FileInterface.upload hash (FileInterface.upload hash fs [p1]).2 [p2]).2) = 0) := by
  have hdet : detect_file_type B = []
      ∨ ((detect_file_type B).head? = some 46 ∧ 46 ∈ detect_file_type B
          ∧ 47 ∉ detect_file_type B) := by
    simp only [detect_file_type]
    split_ifs <;> decide
  have upload_eq : ∀ (fsx : Fs) (p : List Nat),
      fsLookup fsx (resolvePath cwdFiles p) = some B →
      FileInterface.upload hash fsx [p]
        = (.okUpload (hash B ++ detect_file_type B),
           fsWrite fsx (resolvePath cwdFiles (hash B ++ detect_file_type B)) B) := by
    intro fsx p hp
    simp only [FileInterface.upload]
    rw [hp]
  have hup1 := upload_eq fs p1 h1
  have hup2 := upload_eq (FileInterface.upload hash fs [p1]).2 p2 h2
  have hname47 : 47 ∉ hash B ++ detect_file_type B := by
    intro hm
    rcases List.mem_append.mp hm with h | h
    · exact h47 h
    · rcases hdet with hd | hd
      · rw [hd] at h; cases h
      · exact hd.2.2 h
  have hnameNe : hash B ++ detect_file_type B ≠ [] := by
    intro h
    exact hne (List.append_eq_nil.mp h).1
  have hnameHd : (hash B ++ detect_file_type B).head? ≠ some 46 := by
    cases hhB : hash B with
    | nil => exact absurd hhB hne
    | cons a t =>
      intro h
      simp only [List.cons_append, List.head?_cons] at h
      cases h
      exact h46 (hhB ▸ List.mem_cons_self _ _)
  have hkey := resolvePath_plain (hash B ++ detect_file_type B) hname47 hnameNe hnameHd
  have hcount : ∀ fsx : Fs,
      List.count (hash B ++ detect_file_type B)
        (FileInterface.globNames
          (fsWrite fsx (resolvePath cwdFiles (hash B ++ detect_file_type B)) B))
      = if 46 ∈ hash B ++ detect_file_type B then 1 else 0 := by
    intro fsx
    rw [hkey]
    unfold fsWrite
    rw [globNames_append, List.count_append,
      count_globNames_fsRemove (hash B ++ detect_file_type B) fsx,
      globNames_singleton (hash B ++ detect_file_type B) B hname47 hnameNe hnameHd]
    by_cases h46n : 46 ∈ hash B ++ detect_file_type B
    · rw [if_pos h46n, if_pos h46n]
      simp
    · rw [if_neg h46n, if_neg h46n]
      simp
  refine ⟨by rw [hup1], by rw [hup2], rfl, ?_, ?_⟩
  · intro hext
    rw [hup2]
    rw [hcount]
    rcases hdet with hd | hd
    · exact absurd hd hext
    · rw [if_pos (List.mem_append.mpr (Or.inr hd.2.1))]
  · intro hext
    rw [hup2]
    rw [hcount]
    rw [if_neg]
    intro hm
    rcases List.mem_append.mp hm with h | h
    · exact h46 h
    · rw [hext] at h
      cases h

/-- Witness for C7 at a concrete store: uploading a PNG-headed byte string
twice yields the same canonical name and a single `LIST` entry. -/
theorem claim_C7_witness :
    (FileInterface.upload testHash
      [(txt "tmp/t0", [137, 80, 78, 71, 13, 10, 26, 10, 7])] [txt "/tmp/t0"]).1
      = .okUpload (testHash [137, 80, 78, 71, 13, 10, 26, 10, 7] ++ txt ".png")
    ∧ List.count (testHash [137, 80, 78, 71, 13, 10, 26, 10, 7] ++ txt ".png")
        (FileInterface.globNames (FileInterface.upload testHash
          (FileInterface.upload testHash
            [(txt "tmp/t0", [137, 80, 78, 71, 13, 10, 26, 10, 7])] [txt "/tmp/t0"]).2
          [txt "/tmp/t0"]).2) = 1 := by
  have h := claim_C7 testHash [(txt "tmp/t0", [137, 80, 78, 71, 13, 10, 26, 10, 7])]
    (txt "/tmp/t0") (txt "/tmp/t0") [137, 80, 78, 71, 13, 10, 26, 10, 7]
    (by decide) (by decide) (by decide) (by decide) (by decide)
  have hdet : detect_file_type [137, 80, 78, 71, 13, 10, 26, 10, 7] = txt ".png" := by decide
  refine ⟨?_, ?_⟩
  · have h1 := h.1
    rwa [hdet] at h1
  · have h4 := h.2.2.2.1 (by rw [hdet]; decide)
    rwa [hdet] at h4

/-! ## Claim C1: chunking robustness of the frame loop -/

theorem splitNL_some_length : ∀ {s l r : List Nat}, splitNL s = some (l, r) →
    r.length < s.length
  | [], _, _, h => by cases h
  | c :: rest, l, r, h => by
    simp only [splitNL] at h
    by_cases hc : c = 10
    · rw [if_pos hc] at h
      cases h
      simp
    · rw [if_neg hc] at h
      match hr : splitNL rest with
      | some (l2, r2) =>
        rw [hr] at h
        cases h
        exact Nat.lt_trans (splitNL_some_length hr) (by simp)
      | none =>
        rw [hr] at h
        cases h

theorem splitNL_some_append {s l r : List Nat} (t : List Nat)
    (h : splitNL s = some (l, r)) : splitNL (s ++ t) = some (l, r ++ t) := by
  induction s generalizing l with
  | nil => cases h
  | cons c rest ih =>
    rw [List.cons_append]
    simp only [splitNL] at h ⊢
    by_cases hc : c = 10
    · rw [if_pos hc] at h ⊢
      cases h
      rfl
    · rw [if_neg hc] at h ⊢
      match hr : splitNL rest with
      | some (l2, r2) =>
        rw [hr] at h
        cases h
        rw [ih hr]
      | none =>
        rw [hr] at h
        cases h

theorem drainN_fuel (hash : List Nat → List Nat) :
    ∀ (f1 f2 : Nat) (c : Core) (buf : List Nat), buf.length < f1 → buf.length < f2 →
      drainN hash f1 c buf = drainN hash f2 c buf
  | 0, _, _, _, h1, _ => absurd h1 (by omega)
  | _ + 1, 0, _, _, _, h2 => absurd h2 (by omega)
  | f1 + 1, f2 + 1, c, buf, h1, h2 => by
    simp only [drainN]
    match hs : splitNL buf with
    | none => rfl
    | some (l, r) =>
      have hr := splitNL_some_length hs
      exact drainN_fuel hash f1 f2 (handleLine hash c l) r (by omega) (by omega)

/-- The inner frame loop satisfies its one-step unfolding. -/
theorem drain_eq (hash : List Nat → List Nat) (c : Core) (buf : List Nat) :
    drain hash c buf = match splitNL buf with
      | none => (c, buf)
      | some (l, r) => drain hash (handleLine hash c l) r := by
  unfold drain
  show drainN hash (buf.length + 1) c buf = _
  rw [show drainN hash (buf.length + 1) c buf
      = match splitNL buf with
        | none => (c, buf)
        | some (l, r) => drainN hash buf.length (handleLine hash c l) r from rfl]
  match hs : splitNL buf with
  | none => rfl
  | some (l, r) =>
    have hr := splitNL_some_length hs
    exact drainN_fuel hash buf.length (r.length + 1) (handleLine hash c l) r
      (by omega) (by omega)

/-- Draining a buffer extended on the right continues from the drained
state. -/
theorem drain_append (hash : List Nat → List Nat) (s : List Nat) (c : Core)
    (t : List Nat) :
    drain hash c (s ++ t) = drain hash (drain hash c s).1 ((drain hash c s).2 ++ t) := by
  suffices h : ∀ (n : Nat) (s : List Nat), s.length = n → ∀ (c : Core) (t : List Nat),
      drain hash c (s ++ t) = drain hash (drain hash c s).1 ((drain hash c s).2 ++ t) by
    exact h s.length s rfl c t
  intro n
  induction n using Nat.strong_induction_on with
  | _ n ih =>
    intro s hn c t
    match hs : splitNL s with
    | none =>
      rw [drain_eq hash c s, hs]
    | some (l, r) =>
      rw [drain_eq hash c s, hs]
      rw [drain_eq hash c (s ++ t), splitNL_some_append t hs]
      have hr := splitNL_some_length hs
      exact ih r.length (by omega) r rfl (handleLine hash c l) t

/-- Feeding two chunks equals feeding their concatenation. -/
theorem feed_assoc (hash : List Nat → List Nat) (m : Core × List Nat) (x y : List Nat) :
    feed hash (feed hash m x) y = feed hash m (x ++ y) := by
  unfold feed
  rw [← List.append_assoc]
  exact (drain_append hash (m.2 ++ x) m.1 y).symm

theorem handleLine_closed (hash : List Nat → List Nat) (c : Core) (l : List Nat)
    (h : c.closed = true) : handleLine hash c l = c := by
  unfold handleLine
  rw [h]
  rfl

theorem drain_closed (hash : List Nat → List Nat) (buf : List Nat) (c : Core)
    (hc : c.closed = true) : (drain hash c buf).1 = c := by
  suffices h : ∀ (n : Nat) (buf : List Nat), buf.length = n → ∀ (c : Core),
      c.closed = true → (drain hash c buf).1 = c by
    exact h buf.length buf rfl c hc
  intro n
  induction n using Nat.strong_induction_on with
  | _ n ih =>
    intro buf hn c hcl
    match hs : splitNL buf with
    | none => rw [drain_eq hash c buf, hs]
    | some (l, r) =>
      rw [drain_eq hash c buf, hs]
      show (drain hash (handleLine hash c l) r).1 = c
      rw [handleLine_closed hash c l hcl]
      have hr := splitNL_some_length hs
      exact ih r.length (by omega) r rfl c hcl

theorem drain_residue (hash : List Nat → List Nat) (buf : List Nat) (c : Core) :
    splitNL (drain hash c buf).2 = none := by
  suffices h : ∀ (n : Nat) (buf : List Nat), buf.length = n → ∀ (c : Core),
      splitNL (drain hash c buf).2 = none by
    exact h buf.length buf rfl c
  intro n
  induction n using Nat.strong_induction_on with
  | _ n ih =>
    intro buf hn c
    match hs : splitNL buf with
    | none => rw [drain_eq hash c buf, hs]; exact hs
    | some (l, r) =>
      rw [drain_eq hash c buf, hs]
      have hr := splitNL_some_length hs
      exact ih r.length (by omega) r rfl (handleLine hash c l)

theorem feed_nil (hash : List Nat → List Nat) (m : Core × List Nat)
    (h : splitNL m.2 = none) : feed hash m [] = m := by
  unfold feed
  rw [List.append_nil, drain_eq hash m.1 m.2, h]

theorem loopChars_nil (hash : List Nat → List Nat) (m : Core × List Nat) :
    loopChars hash m [] = m := rfl

theorem loopChars_cons (hash : List Nat → List Nat) (m : Core × List Nat)
    (ch : List Nat) (rest : List (List Nat)) :
    loopChars hash m (ch :: rest)
      = if m.1.closed = true ∨ ch = [] then m
        else loopChars hash (feed hash m ch) rest := rfl

/-- The core after the `recv` loop is the same whether the text arrives in
any sequence of nonempty chunks or as one chunk. -/
theorem loopChars_join (hash : List Nat → List Nat) :
    ∀ (chunks : List (List Nat)) (m : Core × List Nat),
      (∀ ch ∈ chunks, ch ≠ []) →
      (loopChars hash m chunks).1 = (loopChars hash m [chunks.flatten]).1 := by
  intro chunks
  induction chunks with
  | nil =>
    intro m _
    rw [loopChars_nil, List.flatten_nil, loopChars_cons]
    rw [if_pos (Or.inr rfl)]
  | cons ch rest ih =>
    intro m hne
    have hch : ch ≠ [] := hne ch (by simp)
    rw [List.flatten_cons]
    by_cases hcl : m.1.closed = true
    · rw [loopChars_cons, loopChars_cons, if_pos (Or.inl hcl), if_pos (Or.inl hcl)]
    · have hguard : ¬(m.1.closed = true ∨ ch = []) := by
        rintro (h | h)
        · exact hcl h
        · exact hch h
      have hguard2 : ¬(m.1.closed = true ∨ ch ++ rest.flatten = []) := by
        rintro (h | h)
        · exact hcl h
        · exact hch (List.append_eq_nil.mp h).1
      rw [loopChars_cons, if_neg hguard, loopChars_cons, if_neg hguard2,
        loopChars_nil, ← feed_assoc hash m ch rest.flatten,
        ih (feed hash m ch) (fun u hu => hne u (by simp [hu]))]
      by_cases hcl2 : (feed hash m ch).1.closed = true
      · rw [loopChars_cons, if_pos (Or.inl hcl2)]
        exact (drain_closed hash _ _ hcl2).symm
      · by_cases hj : rest.flatten = []
        · rw [hj, loopChars_cons, if_pos (Or.inr rfl)]
          rw [feed_nil hash (feed hash m ch) (drain_residue hash _ _)]
        · rw [loopChars_cons, if_neg (by
              rintro (h | h)
              · exact hcl2 h
              · exact hj h),
            loopChars_nil]

theorem utf8DecodeOne_length {bs : List Nat} {cp : Nat} {r2 : List Nat}
    (h : utf8DecodeOne bs = some (cp, r2)) : r2.length < bs.length := by
  match bs with
  | [] => cases h
  | b0 :: rest =>
    dsimp only [utf8DecodeOne] at h
    split_ifs at h with h1 h2 h3 h4
    · cases h
      simp
    · match rest with
      | b1 :: rest2 =>
        dsimp only [utf8DecodeOne] at h
        split_ifs at h
        cases h
        simp only [List.length_cons]
        omega
      | [] => cases h
    · match rest with
      | b1 :: b2 :: rest3 =>
        dsimp only [utf8DecodeOne] at h
        split_ifs at h
        cases h
        simp only [List.length_cons]
        omega
      | [] => cases h
      | [b1] => cases h
    · match rest with
      | b1 :: b2 :: b3 :: rest4 =>
        dsimp only [utf8DecodeOne] at h
        split_ifs at h
        cases h
        simp only [List.length_cons]
        omega
      | [] => cases h
      | [b1] => cases h
      | [b1, b2] => cases h

theorem utf8DecodeN_fuel :
    ∀ (f1 f2 : Nat) (bs : List Nat), bs.length < f1 → bs.length < f2 →
      utf8DecodeN f1 bs = utf8DecodeN f2 bs
  | 0, _, _, h1, _ => absurd h1 (by omega)
  | _ + 1, 0, _, _, h2 => absurd h2 (by omega)
  | f1 + 1, f2 + 1, bs, h1, h2 => by
    match bs with
    | [] => rfl
    | b0 :: rest =>
      show (match utf8DecodeOne (b0 :: rest) with
          | some (cp, rest2) =>
            match utf8DecodeN f1 rest2 with
            | some cs => some (cp :: cs)
            | none => none
          | none => none)
        = (match utf8DecodeOne (b0 :: rest) with
          | some (cp, rest2) =>
            match utf8DecodeN f2 rest2 with
            | some cs => some (cp :: cs)
            | none => none
          | none => none)
      match hone : utf8DecodeOne (b0 :: rest) with
      | none => rfl
      | some (cp, rest2) =>
        have hl := utf8DecodeOne_length hone
        show (match utf8DecodeN f1 rest2 with
            | some cs => some (cp :: cs)
            | none => none)
          = (match utf8DecodeN f2 rest2 with
            | some cs => some (cp :: cs)
            | none => none)
        rw [utf8DecodeN_fuel f1 f2 rest2 (by simp only [List.length_cons] at hl h1; omega)
          (by simp only [List.length_cons] at hl h2; omega)]

/-- One-step unfolding of the whole-string decoder. -/
theorem utf8Decode_cons {bs : List Nat} {cp : Nat} {rest2 : List Nat}
    (h : utf8DecodeOne bs = some (cp, rest2)) :
    utf8Decode bs = match utf8Decode rest2 with
      | some cs => some (cp :: cs)
      | none => none := by
  match bs with
  | [] => cases h
  | b0 :: rest =>
    show utf8DecodeN ((b0 :: rest).length + 1) (b0 :: rest) = _
    have hstep : utf8DecodeN ((b0 :: rest).length + 1) (b0 :: rest)
        = match utf8DecodeOne (b0 :: rest) with
          | some (cp2, r2) =>
            match utf8DecodeN (b0 :: rest).length r2 with
            | some cs => some (cp2 :: cs)
            | none => none
          | none => none := rfl
    rw [hstep, h]
    have hl := utf8DecodeOne_length h
    show (match utf8DecodeN (b0 :: rest).length rest2 with
        | some cs => some (cp :: cs)
        | none => none) = _
    rw [utf8DecodeN_fuel (b0 :: rest).length (rest2.length + 1) rest2 hl (by omega)]
    rfl

/-- `utf8DecodeOne` inverts `utf8Char` on every Unicode scalar value. -/
theorem utf8DecodeOne_char (n : Nat) (hv : ValidCp n) (rest : List Nat) :
    utf8DecodeOne (utf8Char n ++ rest) = some (n, rest) := by
  by_cases h1 : n < 128
  · rw [show utf8Char n = [n] from by unfold utf8Char; rw [if_pos h1]]
    show utf8DecodeOne (n :: rest) = _
    dsimp only [utf8DecodeOne]
    rw [if_pos h1]
  · by_cases h2 : n < 2048
    · rw [show utf8Char n = [192 + n / 64, 128 + n % 64] from by
        unfold utf8Char; rw [if_neg h1, if_pos h2]]
      show utf8DecodeOne ((192 + n / 64) :: (128 + n % 64) :: rest) = _
      have c1 : ¬(192 + n / 64 < 128) := by omega
      have c2 : 194 ≤ 192 + n / 64 ∧ 192 + n / 64 ≤ 223 := ⟨by omega, by omega⟩
      have c3 : utf8Cont (128 + n % 64) = true := by
        unfold utf8Cont
        simp only [Bool.and_eq_true, decide_eq_true_eq]
        omega
      dsimp only [utf8DecodeOne]
      rw [if_neg c1, if_pos c2, c3, if_pos rfl]
      congr 2
      omega
    · by_cases h3 : n < 65536
      · rw [show utf8Char n = [224 + n / 4096, 128 + n / 64 % 64, 128 + n % 64] from by
          unfold utf8Char; rw [if_neg h1, if_neg h2, if_pos h3]]
        show utf8DecodeOne ((224 + n / 4096) :: (128 + n / 64 % 64) :: (128 + n % 64) :: rest) = _
        have c1 : ¬(224 + n / 4096 < 128) := by omega
        have c2 : ¬(194 ≤ 224 + n / 4096 ∧ 224 + n / 4096 ≤ 223) := by omega
        have c3 : 224 ≤ 224 + n / 4096 ∧ 224 + n / 4096 ≤ 239 := ⟨by omega, by omega⟩
        have hvx : n < 55296 ∨ 57344 ≤ n := by
          rcases hv with h | h
          · exact Or.inl h
          · exact Or.inr h.1
        have c4 : (utf8Cont (128 + n / 64 % 64) = true ∧ utf8Cont (128 + n % 64) = true
            ∧ (224 + n / 4096 = 224 → 160 ≤ 128 + n / 64 % 64)
            ∧ (224 + n / 4096 = 237 → 128 + n / 64 % 64 ≤ 159)) := by
          refine ⟨?_, ?_, ?_, ?_⟩
          · unfold utf8Cont
            simp only [Bool.and_eq_true, decide_eq_true_eq]
            omega
          · unfold utf8Cont
            simp only [Bool.and_eq_true, decide_eq_true_eq]
            omega
          · intro he
            omega
          · intro he
            omega
        dsimp only [utf8DecodeOne]
        rw [if_neg c1, if_neg c2, if_pos c3, if_pos c4]
        congr 2
        omega
      · have h4 : n < 1114112 := by
          rcases hv with h | h
          · omega
          · exact h.2
        rw [show utf8Char n
            = [240 + n / 262144, 128 + n / 4096 % 64, 128 + n / 64 % 64, 128 + n % 64] from by
          unfold utf8Char; rw [if_neg h1, if_neg h2, if_neg h3]]
        show utf8DecodeOne ((240 + n / 262144) :: (128 + n / 4096 % 64)
          :: (128 + n / 64 % 64) :: (128 + n % 64) :: rest) = _
        have c1 : ¬(240 + n / 262144 < 128) := by omega
        have c2 : ¬(194 ≤ 240 + n / 262144 ∧ 240 + n / 262144 ≤ 223) := by omega
        have c3 : ¬(224 ≤ 240 + n / 262144 ∧ 240 + n / 262144 ≤ 239) := by omega
        have c4 : 240 ≤ 240 + n / 262144 ∧ 240 + n / 262144 ≤ 244 := ⟨by omega, by omega⟩
        have c5 : (utf8Cont (128 + n / 4096 % 64) = true ∧ utf8Cont (128 + n / 64 % 64) = true
            ∧ utf8Cont (128 + n % 64) = true
            ∧ (240 + n / 262144 = 240 → 144 ≤ 128 + n / 4096 % 64)
            ∧ (240 + n / 262144 = 244 → 128 + n / 4096 % 64 ≤ 143)) := by
          refine ⟨?_, ?_, ?_, ?_, ?_⟩
          · unfold utf8Cont
            simp only [Bool.and_eq_true, decide_eq_true_eq]
            omega
          · unfold utf8Cont
            simp only [Bool.and_eq_true, decide_eq_true_eq]
            omega
          · unfold utf8Cont
            simp only [Bool.and_eq_true, decide_eq_true_eq]
            omega
          · intro he
            omega
          · intro he
            omega
        dsimp only [utf8DecodeOne]
        rw [if_neg c1, if_neg c2, if_neg c3, if_pos c4, if_pos c5]
        congr 2
        omega

theorem utf8Decode_char (n : Nat) (hv : ValidCp n) (rest : List Nat) :
    utf8Decode (utf8Char n ++ rest)
      = match utf8Decode rest with
        | some cs => some (n :: cs)
        | none => none :=
  utf8Decode_cons (utf8DecodeOne_char n hv rest)

/-- `bytes.decode()` inverts `str.encode()` on scalar-value strings. -/
theorem utf8Decode_utf8Encode : ∀ t : List Nat, (∀ cp ∈ t, ValidCp cp) →
    utf8Decode (utf8Encode t) = some t
  | [], _ => rfl
  | c :: rest, hv => by
    show utf8Decode (utf8Char c ++ utf8Encode rest) = some (c :: rest)
    rw [utf8Decode_char c (hv c (by simp)) (utf8Encode rest),
      utf8Decode_utf8Encode rest (fun x hx => hv x (by simp [hx]))]

theorem utf8Char_ne_nil (n : Nat) : utf8Char n ≠ [] := by
  unfold utf8Char
  split_ifs <;> simp

theorem utf8Encode_eq_nil_iff (t : List Nat) : utf8Encode t = [] ↔ t = [] := by
  cases t with
  | nil => simp [utf8Encode]
  | cons c rest =>
    simp only [utf8Encode, List.append_eq_nil]
    constructor
    · intro h
      exact absurd h.1 (utf8Char_ne_nil c)
    · intro h
      cases h

theorem loopBytes_nil (hash : List Nat → List Nat) (m : Core × List Nat) :
    loopBytes hash m [] = m := rfl

theorem loopBytes_cons (hash : List Nat → List Nat) (m : Core × List Nat)
    (ch : List Nat) (rest : List (List Nat)) :
    loopBytes hash m (ch :: rest)
      = if m.1.closed = true ∨ ch = [] then m
        else loopBytes hash (feedBytes hash m ch) rest := rfl

/-- The byte-level `recv` loop on validly encoded chunks is the text-level
loop on their decoded texts. -/
theorem loopBytes_encode (hash : List Nat → List Nat) :
    ∀ (texts : List (List Nat)) (m : Core × List Nat),
      (∀ t ∈ texts, ∀ cp ∈ t, ValidCp cp) →
      loopBytes hash m (texts.map utf8Encode) = loopChars hash m texts := by
  intro texts
  induction texts with
  | nil =>
    intro m _
    rfl
  | cons t rest ih =>
    intro m hv
    rw [List.map_cons, loopBytes_cons, loopChars_cons]
    have henc : (utf8Encode t = []) = (t = []) := by
      rw [utf8Encode_eq_nil_iff]
    simp only [henc]
    by_cases hguard : m.1.closed = true ∨ t = []
    · rw [if_pos hguard, if_pos hguard]
    · rw [if_neg hguard, if_neg hguard]
      rw [show feedBytes hash m (utf8Encode t) = feed hash m t from by
        unfold feedBytes
        rw [utf8Decode_utf8Encode t (hv t (by simp))]]
      exact ih (feed hash m t) (fun u hu => hv u (by simp [hu]))

/-- Counterexample to claim C1 as stated: the two-byte UTF-8 character `é`
split across two `recv` calls.  Delivered whole, the bytes of `"é\nLIST\n"`
produce two responses (an ERROR envelope for the unknown command and the
`LIST` envelope); split after the first byte, `data.decode()` raises
`UnicodeDecodeError` on the one-byte chunk, the handler aborts after a single
error response, and the `LIST` frame is lost — the response sequences
differ. -/
theorem claim_C1_counterexample :
    (runBytes testHash (initCore []) [[195], [169, 10, 76, 73, 83, 84, 10]]).out.length = 1
    ∧ (runBytes testHash (initCore []) [[195, 169, 10, 76, 73, 83, 84, 10]]).out.length = 2
    ∧ (runBytes testHash (initCore []) [[195], [169, 10, 76, 73, 83, 84, 10]]).dispatched = []
    ∧ (runBytes testHash (initCore []) [[195, 169, 10, 76, 73, 83, 84, 10]]).dispatched
        = [[233], txt "LIST"]
    ∧ (runBytes testHash (initCore []) [[195], [169, 10, 76, 73, 83, 84, 10]]).out
        ≠ (runBytes testHash (initCore []) [[195, 169, 10, 76, 73, 83, 84, 10]]).out := by
  decide

/-- Claim C1 as amended: for every sequence of bytes delivered to a
connection handler, however that sequence is split across `recv` calls *at
UTF-8 character boundaries* (each nonempty chunk is the encoding of some
text — in particular any split of all-ASCII traffic), the handler ends in
exactly the same state as if the whole sequence had arrived in a single
`recv`: same responses in the same order, no frame lost, duplicated or
processed out of order. -/
theorem claim_C1 (hash : List Nat → List Nat) (fs : Fs) (texts : List (List Nat))
    (hne : ∀ t ∈ texts, t ≠ []) (hv : ∀ t ∈ texts, ∀ cp ∈ t, ValidCp cp) :
    runBytes hash (initCore fs) (texts.map utf8Encode)
      = runBytes hash (initCore fs) [utf8Encode texts.flatten] := by
  have hvf : ∀ cp ∈ texts.flatten, ValidCp cp := by
    intro cp hcp
    obtain ⟨t, ht, hmem⟩ := List.mem_flatten.mp hcp
    exact hv t ht cp hmem
  unfold runBytes
  rw [loopBytes_encode hash texts (initCore fs, []) hv]
  rw [show [utf8Encode texts.flatten] = [texts.flatten].map utf8Encode from rfl]
  rw [loopBytes_encode hash [texts.flatten] (initCore fs, [])
    (by intro t ht cp hcp; rw [List.mem_singleton] at ht; exact hvf cp (ht ▸ hcp))]
  rw [loopChars_join hash texts (initCore fs, []) hne]

/-- Witness for C1: `"LIST\nGET x\n"` split mid-frame into three chunks gives
the same final state as delivered whole. -/
theorem claim_C1_witness :
    runBytes testHash (initCore [])
        (List.map utf8Encode [txt "LI", txt "ST\nGET", txt " x\n"])
      = runBytes testHash (initCore []) [utf8Encode (List.flatten [txt "LI", txt "ST\nGET", txt " x\n"])] := by
  exact claim_C1 testHash [] [txt "LI", txt "ST\nGET", txt " x\n"] (by decide) (by decide)

/-! ## Claim C4: cleanup of interrupted uploads -/

theorem fsLookup_fsRemove_self (k : List Nat) : ∀ fs : Fs,
    fsLookup (fsRemove fs k) k = none
  | [] => rfl
  | (k2, v) :: rest => by
    by_cases h : k2 = k
    · simp only [fsRemove, if_pos h]
      exact fsLookup_fsRemove_self k rest
    · simp only [fsRemove, if_neg h, fsLookup]
      exact fsLookup_fsRemove_self k rest

theorem dropWhile_head_false {p : Nat → Bool} : ∀ {l : List Nat} {a : Nat},
    (l.dropWhile p).head? = some a → p a = false
  | [], _, h => by cases h
  | c :: rest, a, h => by
    rw [List.dropWhile_cons] at h
    by_cases hc : p c = true
    · rw [if_pos hc] at h
      exact dropWhile_head_false h
    · rw [if_neg hc] at h
      simp only [List.head?_cons, Option.some.injEq] at h
      subst h
      match hpc : p c with
      | false => rfl
      | true => exact absurd hpc hc

theorem prefix_head {x u : List Nat} (h : x <+: u) {a : Nat}
    (ha : x.head? = some a) : u.head? = some a := by
  obtain ⟨t, rfl⟩ := h
  cases x with
  | nil => cases ha
  | cons b xs => cases ha; rfl

theorem stripWs_prefix_dropWhile (s : List Nat) : stripWs s <+: s.dropWhile pyWs := by
  unfold stripWs
  have h1 : (s.dropWhile pyWs).reverse.dropWhile pyWs <:+ (s.dropWhile pyWs).reverse :=
    List.dropWhile_suffix pyWs
  have h2 := List.reverse_prefix.mpr h1
  rwa [List.reverse_reverse] at h2

theorem stripWs_head {s : List Nat} {a : Nat} (h : (stripWs s).head? = some a) :
    pyWs a = false :=
  dropWhile_head_false (prefix_head (stripWs_prefix_dropWhile s) h)

theorem stripWs_dropWhile (s : List Nat) : (stripWs s).dropWhile pyWs = stripWs s := by
  cases hx : stripWs s with
  | nil => rfl
  | cons a t =>
    have hh : pyWs a = false := stripWs_head (by rw [hx]; rfl)
    rw [List.dropWhile_cons, hh]
    simp

theorem splitWsAux_acc : ∀ (s acc : List Nat), acc ≠ [] →
    ∃ rest2, splitWsAux acc s
      = (acc.reverse ++ s.takeWhile (fun c => !pyWs c)) :: rest2
  | [], acc, h =>
    ⟨[], by simp only [splitWsAux, if_neg h, List.takeWhile_nil, List.append_nil]⟩
  | c :: s2, acc, h => by
    by_cases hc : pyWs c = true
    · refine ⟨splitWsAux [] s2, ?_⟩
      simp only [splitWsAux, hc, if_true, if_neg h, List.takeWhile_cons, Bool.not_true,
        Bool.false_eq_true, if_false, List.append_nil]
    · obtain ⟨r2, hr⟩ := splitWsAux_acc s2 (c :: acc) (by simp)
      refine ⟨r2, ?_⟩
      have hcf : pyWs c = false := by
        match hpc : pyWs c with
        | false => rfl
        | true => exact absurd hpc hc
      simp only [splitWsAux, hcf, Bool.false_eq_true, if_false, hr, List.reverse_cons,
        List.takeWhile_cons, Bool.not_false, if_true, List.append_assoc, List.cons_append,
        List.nil_append]

theorem splitWs_head_prefixOf : ∀ {s v : List Nat} {rest : List (List Nat)},
    splitWs s = v :: rest → v.isPrefixOf (s.dropWhile pyWs) = true := by
  intro s
  induction s with
  | nil =>
    intro v rest h
    cases h
  | cons c s2 ih =>
    intro v rest h
    unfold splitWs at h
    by_cases hc : pyWs c = true
    · simp only [splitWsAux, hc, if_true] at h
      rw [List.dropWhile_cons, if_pos hc]
      exact ih h
    · have hcf : pyWs c = false := by
        match hpc : pyWs c with
        | false => rfl
        | true => exact absurd hpc hc
      simp only [splitWsAux, hcf, Bool.false_eq_true, if_false] at h
      obtain ⟨r2, hr⟩ := splitWsAux_acc s2 [c] (by simp)
      rw [hr] at h
      cases h
      rw [List.dropWhile_cons, hcf]
      simp only [Bool.false_eq_true, if_false]
      rw [show [c].reverse ++ s2.takeWhile (fun x => !pyWs x)
          = c :: s2.takeWhile (fun x => !pyWs x) from rfl]
      obtain ⟨t, ht⟩ := List.takeWhile_prefix (l := s2) (fun x => !pyWs x)
      exact List.isPrefixOf_iff_prefix.mpr ⟨t, by rw [List.cons_append, ht]⟩

/-- A line whose stripped form does not start with `UPLOAD` never reaches the
dispatcher's internal `UPLOAD` branch: its effect on the filesystem is either
nothing or a single `os.remove`. -/
theorem proses_string_snd (hash : List Nat → List Nat) (fs : Fs) (line : List Nat)
    (hll : line.dropWhile pyWs = line)
    (hno : (txt "UPLOAD").isPrefixOf line = false) :
    (proses_string hash fs line).2 = fs
    ∨ ∃ k, (proses_string hash fs line).2 = fsRemove fs k := by
  rcases hsp : splitWs line with _ | ⟨verb, params⟩
  · unfold proses_string
    simp only [hsp]
    exact Or.inl trivial
  · unfold proses_string
    simp only [hsp]
    by_cases hv1 : verb = txt "LIST"
    · rw [if_pos hv1]
      exact Or.inl rfl
    · rw [if_neg hv1]
      by_cases hv2 : verb = txt "GET"
      · rw [if_pos hv2]
        exact Or.inl rfl
      · rw [if_neg hv2]
        by_cases hv3 : verb = txt "DELETE"
        · rw [if_pos hv3]
          rcases params with _ | ⟨f, ps⟩
          · exact Or.inl rfl
          · by_cases hf : f = []
            · left
              simp only [FileInterface.delete]
              rw [if_pos hf]
            · simp only [FileInterface.delete]
              rw [if_neg hf]
              cases hlk : fsLookup fs (resolvePath cwdFiles f) with
              | none => exact Or.inl rfl
              | some bs => exact Or.inr ⟨resolvePath cwdFiles f, rfl⟩
        · rw [if_neg hv3]
          by_cases hv4 : verb = txt "UPLOAD"
          · exfalso
            have hp := splitWs_head_prefixOf hsp
            rw [hll, hv4] at hp
            rw [hp] at hno
            cases hno
          · rw [if_neg hv4]
            exact Or.inl rfl

theorem fsRemove_sublist (k : List Nat) : ∀ fs : Fs, List.Sublist (fsRemove fs k) fs
  | [] => List.Sublist.refl []
  | (k2, v) :: rest => by
    by_cases hk : k2 = k
    · simp only [fsRemove, if_pos hk]
      exact (fsRemove_sublist k rest).trans (List.sublist_cons_self (k2, v) rest)
    · simp only [fsRemove, if_neg hk]
      exact List.Sublist.cons₂ (k2, v) (fsRemove_sublist k rest)

theorem mem_filesKeys_of_fsRemove {fs : Fs} {k0 k : List Nat}
    (h : k ∈ filesKeys (fsRemove fs k0)) : k ∈ filesKeys fs := by
  unfold filesKeys at h ⊢
  exact (((fsRemove_sublist k0 fs).map Prod.fst).filter _).subset h

theorem filesKeys_append (l1 l2 : Fs) :
    filesKeys (l1 ++ l2) = filesKeys l1 ++ filesKeys l2 := by
  unfold filesKeys
  rw [List.map_append, List.filter_append]

theorem mem_filesKeys_fsWrite {fs : Fs} {k0 v k : List Nat}
    (hk0 : (txt "files/").isPrefixOf k0 = false)
    (h : k ∈ filesKeys (fsWrite fs k0 v)) : k ∈ filesKeys fs := by
  unfold fsWrite at h
  rw [filesKeys_append] at h
  rcases List.mem_append.mp h with h2 | h2
  · exact mem_filesKeys_of_fsRemove h2
  · exfalso
    unfold filesKeys at h2
    simp [hk0] at h2

theorem natDigitsN_mem : ∀ (f n : Nat), ∀ d ∈ natDigitsN f n, 48 ≤ d ∧ d ≤ 57
  | 0, _ => by
    intro d hd
    cases hd
  | f + 1, n => by
    intro d hd
    simp only [natDigitsN] at hd
    by_cases h : n < 10
    · rw [if_pos h] at hd
      simp only [List.mem_singleton] at hd
      omega
    · rw [if_neg h] at hd
      rcases List.mem_append.mp hd with h2 | h2
      · exact natDigitsN_mem f (n / 10) d h2
      · simp only [List.mem_singleton] at h2
        omega

theorem natDigits_no47 (i : Nat) : 47 ∉ natDigits i := by
  intro h
  have := natDigitsN_mem (i + 1) i 47 h
  omega

theorem splitSlash_append_slash (s : List Nat) : ∀ (pre : List Nat), 47 ∉ pre →
    splitSlash (pre ++ 47 :: s) = pre :: splitSlash s
  | [], _ => by
    show splitSlash (47 :: s) = [] :: splitSlash s
    simp [splitSlash]
  | c :: pre2, h => by
    have hc : c ≠ 47 := fun hc => h (hc ▸ List.mem_cons_self c pre2)
    have hr := splitSlash_append_slash s pre2 (fun hm => h (List.mem_cons_of_mem c hm))
    rw [List.cons_append]
    simp only [splitSlash]
    rw [if_neg hc, hr]

/-- The temporary path for the `i`-th upload resolves to `tmp/tmp<i>`. -/
theorem tmpName_resolve (i : Nat) :
    resolvePath cwdFiles (tmpName i) = txt "tmp/tmp" ++ natDigits i := by
  have hD := natDigits_no47 i
  have hshape : tmpName i = 47 :: (txt "tmp" ++ 47 :: (txt "tmp" ++ natDigits i)) := rfl
  unfold resolvePath
  rw [if_pos (show (tmpName i).head? = some 47 from by rw [hshape]; rfl)]
  rw [hshape]
  rw [show splitSlash (47 :: (txt "tmp" ++ 47 :: (txt "tmp" ++ natDigits i)))
      = [] :: splitSlash (txt "tmp" ++ 47 :: (txt "tmp" ++ natDigits i)) from by
    simp [splitSlash]]
  rw [splitSlash_append_slash _ (txt "tmp") (by decide)]
  rw [splitSlash_no47 (txt "tmp" ++ natDigits i) (by
    intro hm
    rcases List.mem_append.mp hm with h2 | h2
    · exact absurd h2 (by decide)
    · exact hD h2)]
  have h1 : ¬((txt "tmp" ++ natDigits i) = [] ∨ (txt "tmp" ++ natDigits i) = [46]) := by
    rintro (h2 | h2) <;> cases h2
  have h2 : (txt "tmp" ++ natDigits i) ≠ [46, 46] := by
    rintro h3
    cases h3
  show joinSlash (normSegs [] ([] :: txt "tmp" :: [txt "tmp" ++ natDigits i])) = _
  rw [show normSegs [] ([] :: txt "tmp" :: [txt "tmp" ++ natDigits i])
      = normSegs [txt "tmp"] [txt "tmp" ++ natDigits i] from rfl]
  unfold normSegs
  rw [if_neg h1, if_neg h2]
  show joinSlash [txt "tmp", txt "tmp" ++ natDigits i] = _
  simp [joinSlash, List.intercalate, List.intersperse, txt]

theorem tmpName_not_files (i : Nat) :
    (txt "files/").isPrefixOf (resolvePath cwdFiles (tmpName i)) = false := by
  rw [tmpName_resolve]
  rfl

/-- One frame preserves the session invariant. -/
theorem handleLine_inv (hash : List Nat → List Nat) (fs₀ : Fs) (c : Core) (l : List Nat)
    (h : SessionInv fs₀ c) : SessionInv fs₀ (handleLine hash c l) := by
  obtain ⟨h1, h2⟩ := h
  unfold handleLine
  by_cases hcl : c.closed = true
  · rw [if_pos hcl]
    exact ⟨h1, h2⟩
  · rw [if_neg hcl]
    by_cases hup : c.uploading = true
    · rw [if_pos hup]
      by_cases hend : stripWs l = txt "ENDUPLOAD"
      · rw [if_pos hend]
        constructor
        · intro hc0
          exfalso
          have hx : c.completed + 1 = 0 := hc0
          omega
        · intro p hp
          have hx : (none : Option (List Nat)) = some p := hp
          cases hx
      · rw [if_neg hend]
        cases hdec : b64decode (stripWs l) with
        | some bs =>
          constructor
          · intro hc0 k hk
            have hc0x : c.completed = 0 := hc0
            have hkey : (txt "files/").isPrefixOf
                (resolvePath cwdFiles (c.tempPath.getD [])) = false := by
              cases htp : c.tempPath with
              | none => decide
              | some p => exact h2 p htp
            have hkx : k ∈ filesKeys (fsAppend c.fs
                (resolvePath cwdFiles (c.tempPath.getD [])) bs) := hk
            exact h1 hc0x k (mem_filesKeys_fsWrite hkey hkx)
          · intro p hp
            exact h2 p hp
        | none =>
          constructor
          · intro hc0 k hk
            exact h1 hc0 k hk
          · intro p hp
            exact h2 p hp
    · rw [if_neg hup]
      by_cases hpre : (txt "UPLOAD").isPrefixOf (stripWs l) = true
      · rw [if_pos hpre]
        constructor
        · intro hc0 k hk
          have hkx : k ∈ filesKeys (fsWrite c.fs
              (resolvePath cwdFiles (tmpName c.tmpCtr)) []) := hk
          exact h1 hc0 k (mem_filesKeys_fsWrite (tmpName_not_files c.tmpCtr) hkx)
        · intro p hp
          have hx : some (tmpName c.tmpCtr) = some p := hp
          cases hx
          exact tmpName_not_files c.tmpCtr
      · rw [if_neg hpre]
        have hll : (stripWs l).dropWhile pyWs = stripWs l := stripWs_dropWhile l
        have hno : (txt "UPLOAD").isPrefixOf (stripWs l) = false := by
          match hx : (txt "UPLOAD").isPrefixOf (stripWs l) with
          | false => rfl
          | true => exact absurd hx hpre
        rcases proses_string_snd hash c.fs (stripWs l) hll hno with heq | ⟨k0, heq⟩
        · constructor
          · intro hc0 k hk
            have hkx : k ∈ filesKeys (proses_string hash c.fs (stripWs l)).2 := hk
            rw [heq] at hkx
            exact h1 hc0 k hkx
          · intro p hp
            exact h2 p hp
        · constructor
          · intro hc0 k hk
            have hkx : k ∈ filesKeys (proses_string hash c.fs (stripWs l)).2 := hk
            rw [heq] at hkx
            exact h1 hc0 k (mem_filesKeys_of_fsRemove hkx)
          · intro p hp
            exact h2 p hp

theorem drainN_inv (hash : List Nat → List Nat) (fs₀ : Fs) :
    ∀ (f : Nat) (c : Core) (buf : List Nat),
      SessionInv fs₀ c → SessionInv fs₀ (drainN hash f c buf).1
  | 0, _, _, h => h
  | f + 1, c, buf, h => by
    show SessionInv fs₀ (match splitNL buf with
      | none => (c, buf)
      | some (l, r) => drainN hash f (handleLine hash c l) r).1
    cases hs : splitNL buf with
    | none => exact h
    | some lr =>
      exact drainN_inv hash fs₀ f (handleLine hash c lr.1) lr.2
        (handleLine_inv hash fs₀ c lr.1 h)

theorem feedBytes_inv (hash : List Nat → List Nat) (fs₀ : Fs) (m : Core × List Nat)
    (ch : List Nat) (h : SessionInv fs₀ m.1) :
    SessionInv fs₀ (feedBytes hash m ch).1 := by
  unfold feedBytes
  cases utf8Decode ch with
  | some t => exact drainN_inv hash fs₀ _ m.1 (m.2 ++ t) h
  | none => exact ⟨h.1, h.2⟩

theorem loopBytes_inv (hash : List Nat → List Nat) (fs₀ : Fs) :
    ∀ (chunks : List (List Nat)) (m : Core × List Nat),
      SessionInv fs₀ m.1 → SessionInv fs₀ (loopBytes hash m chunks).1
  | [], _, h => h
  | ch :: rest, m, h => by
    rw [loopBytes_cons]
    by_cases hguard : m.1.closed = true ∨ ch = []
    · rw [if_pos hguard]
      exact h
    · rw [if_neg hguard]
      exact loopBytes_inv hash fs₀ rest (feedBytes hash m ch)
        (feedBytes_inv hash fs₀ m ch h)

theorem finalize_tempOpen (c : Core) : (finalize c).tempOpen = false := by
  unfold finalize
  cases c.tempPath <;> rfl

theorem finalize_tempPath (c : Core) : (finalize c).tempPath = c.tempPath := by
  unfold finalize
  cases c.tempPath <;> rfl

theorem finalize_completed (c : Core) : (finalize c).completed = c.completed := by
  unfold finalize
  cases c.tempPath <;> rfl

theorem finalize_lookup (c : Core) (p : List Nat) (hp : c.tempPath = some p) :
    fsLookup (finalize c).fs (resolvePath cwdFiles p) = none := by
  unfold finalize
  rw [hp]
  exact fsLookup_fsRemove_self _ _

theorem finalize_filesKeys (c : Core) {k : List Nat}
    (hk : k ∈ filesKeys (finalize c).fs) : k ∈ filesKeys c.fs := by
  unfold finalize at hk
  cases htp : c.tempPath with
  | none =>
    rw [htp] at hk
    exact hk
  | some p =>
    rw [htp] at hk
    exact mem_filesKeys_of_fsRemove hk

/-- Claim C4: however a connection ends — peer close (the chunk list ends or
contains a zero-length read) or an error aborting the handler — the `finally`
cleanup leaves the temporary-file handle closed, the temporary file absent
from disk, and, as long as no upload ran to completion (`ENDUPLOAD` never
dispatched a store), canonical storage holds no entry it did not already
hold. -/
theorem claim_C4 (hash : List Nat → List Nat) (fs : Fs) (chunks : List (List Nat)) :
    (runBytes hash (initCore fs) chunks).tempOpen = false
    ∧ (∀ p, (runBytes hash (initCore fs) chunks).tempPath = some p →
        fsLookup (runBytes hash (initCore fs) chunks).fs (resolvePath cwdFiles p) = none)
    ∧ ((runBytes hash (initCore fs) chunks).completed = 0 →
        ∀ k, k ∈ filesKeys (runBytes hash (initCore fs) chunks).fs → k ∈ filesKeys fs) := by
  have hinv : SessionInv fs (loopBytes hash (initCore fs, []) chunks).1 :=
    loopBytes_inv hash fs chunks (initCore fs, [])
      ⟨fun _ k hk => hk, fun p hp => by cases hp⟩
  refine ⟨finalize_tempOpen _, ?_, ?_⟩
  · intro p hp
    show fsLookup (finalize (loopBytes hash (initCore fs, []) chunks).1).fs
      (resolvePath cwdFiles p) = none
    refine finalize_lookup _ p ?_
    have hx := finalize_tempPath (loopBytes hash (initCore fs, []) chunks).1
    rw [← hx]
    exact hp
  · intro hc0 k hk
    have hc0x : (loopBytes hash (initCore fs, []) chunks).1.completed = 0 := by
      rw [← finalize_completed (loopBytes hash (initCore fs, []) chunks).1]
      exact hc0
    exact hinv.1 hc0x k (finalize_filesKeys _ hk)

/-- Witness for C4: an upload interrupted after one chunk (`UPLOAD`, one
base64 line, then peer close) leaves no temporary file and an empty canonical
store. -/
theorem claim_C4_witness :
    (runBytes testHash (initCore []) [txt "UPLOAD\naGk=\n"]).tempOpen = false
    ∧ fsLookup (runBytes testHash (initCore []) [txt "UPLOAD\naGk=\n"]).fs
        (resolvePath cwdFiles (txt "/tmp/tmp0")) = none
    ∧ (∀ k, k ∈ filesKeys (runBytes testHash (initCore []) [txt "UPLOAD\naGk=\n"]).fs
        → k ∈ filesKeys []) := by
  have h := claim_C4 testHash [] [txt "UPLOAD\naGk=\n"]
  exact ⟨h.1, h.2.1 (txt "/tmp/tmp0") (by decide), h.2.2 (by decide)⟩


/-! ## Claim C9: JSON well-formedness of every emitted envelope -/

/-! ## JSON acceptance of the serialized envelopes -/

theorem jstrTail_cons (c : Nat) (rest : List Nat) :
    jstrTail (c :: rest)
      = if c = 34 then some rest
        else if c = 92 then
          (match rest with
          | [] => none
          | e :: rest2 =>
            if e = 34 ∨ e = 92 ∨ e = 47 ∨ e = 98 ∨ e = 102 ∨ e = 110 ∨ e = 114 ∨ e = 116 then
              jstrTail rest2
            else if e = 117 then
              (match rest2 with
              | h1 :: h2 :: h3 :: h4 :: rest3 =>
                if jsonHexDigit h1 ∧ jsonHexDigit h2 ∧ jsonHexDigit h3 ∧ jsonHexDigit h4 then
                  jstrTail rest3
                else none
              | _ => none)
            else none)
        else if 32 ≤ c then jstrTail rest else none := by
  conv_lhs => rw [jstrTail.eq_def]

theorem jparseN_succ_val (f : Nat) (cs : List Nat) :
    jparseN (f + 1) .val cs
      = (match cs with
        | [] => none
        | c :: rest =>
          if c = 34 then jstrTail rest
          else if c = 110 then jlit (txt "ull") rest
          else if c = 116 then jlit (txt "rue") rest
          else if c = 102 then jlit (txt "alse") rest
          else if c = 123 then
            match skipWs rest with
            | 125 :: r2 => some r2
            | cs2 => jparseN f .pairs cs2
          else if c = 91 then
            match skipWs rest with
            | 93 :: r2 => some r2
            | cs2 => jparseN f .items cs2
          else jnum (c :: rest)) := by
  conv_lhs => rw [jparseN.eq_def]

theorem jparseN_succ_pairs (f : Nat) (cs : List Nat) :
    jparseN (f + 1) .pairs cs
      = (match cs with
        | 34 :: rest =>
          match jstrTail rest with
          | none => none
          | some r1 =>
            match skipWs r1 with
            | 58 :: r2 =>
              match jparseN f .val (skipWs r2) with
              | none => none
              | some r3 =>
                match skipWs r3 with
                | 44 :: r4 => jparseN f .pairs (skipWs r4)
                | 125 :: r5 => some r5
                | _ => none
            | _ => none
        | _ => none) := by
  conv_lhs => rw [jparseN.eq_def]

theorem jparseN_succ_items (f : Nat) (cs : List Nat) :
    jparseN (f + 1) .items cs
      = (match jparseN f .val cs with
        | none => none
        | some r1 =>
          match skipWs r1 with
          | 44 :: r2 => jparseN f .items (skipWs r2)
          | 93 :: r3 => some r3
          | _ => none) := by
  conv_lhs => rw [jparseN.eq_def]

theorem jparseN_zero (m : JMode) (cs : List Nat) : jparseN 0 m cs = none := rfl

theorem jparseN_mono : ∀ (f g : Nat), f ≤ g → ∀ (m : JMode) (cs r : List Nat),
    jparseN f m cs = some r → jparseN g m cs = some r := by
  intro f
  induction f with
  | zero =>
    intro g hg m cs r h
    rw [jparseN_zero] at h
    cases h
  | succ f ih =>
    intro g hg m cs r h
    obtain ⟨g2, rfl⟩ : ∃ g2, g = g2 + 1 := ⟨g - 1, by omega⟩
    have hfg : f ≤ g2 := by omega
    cases m with
    | val =>
      rw [jparseN_succ_val] at h ⊢
      cases cs with
      | nil => exact h
      | cons c rest =>
        have h2 : (if c = 34 then jstrTail rest
          else if c = 110 then jlit (txt "ull") rest
          else if c = 116 then jlit (txt "rue") rest
          else if c = 102 then jlit (txt "alse") rest
          else if c = 123 then
            (match skipWs rest with
            | 125 :: r2 => some r2
            | cs2 => jparseN f .pairs cs2)
          else if c = 91 then
            (match skipWs rest with
            | 93 :: r2 => some r2
            | cs2 => jparseN f .items cs2)
          else jnum (c :: rest)) = some r := h
        clear h
        show (if c = 34 then jstrTail rest
          else if c = 110 then jlit (txt "ull") rest
          else if c = 116 then jlit (txt "rue") rest
          else if c = 102 then jlit (txt "alse") rest
          else if c = 123 then
            (match skipWs rest with
            | 125 :: r2 => some r2
            | cs2 => jparseN g2 .pairs cs2)
          else if c = 91 then
            (match skipWs rest with
            | 93 :: r2 => some r2
            | cs2 => jparseN g2 .items cs2)
          else jnum (c :: rest)) = some r
        split_ifs at h2 ⊢ <;> try exact h2
        · split at h2
          · exact h2
          · exact ih g2 hfg _ _ _ h2
        · split at h2
          · exact h2
          · exact ih g2 hfg _ _ _ h2
    | pairs =>
      rw [jparseN_succ_pairs] at h ⊢
      split at h
      · rename_i t rest
        cases hst : jstrTail rest with
        | none => rw [hst] at h; cases h
        | some r1 =>
          rw [hst] at h
          have h2 : (match skipWs r1 with
            | 58 :: r2 =>
              (match jparseN f .val (skipWs r2) with
              | none => none
              | some r3 =>
                match skipWs r3 with
                | 44 :: r4 => jparseN f .pairs (skipWs r4)
                | 125 :: r5 => some r5
                | _ => none)
            | _ => none) = some r := h
          clear h
          show (match skipWs r1 with
            | 58 :: r2 =>
              (match jparseN g2 .val (skipWs r2) with
              | none => none
              | some r3 =>
                match skipWs r3 with
                | 44 :: r4 => jparseN g2 .pairs (skipWs r4)
                | 125 :: r5 => some r5
                | _ => none)
            | _ => none) = some r
          split at h2
          · rename_i r2 heq
            cases hv : jparseN f .val (skipWs r2) with
            | none => rw [hv] at h2; cases h2
            | some r3 =>
              rw [hv] at h2
              rw [ih g2 hfg _ _ _ hv]
              have h3 : (match skipWs r3 with
                | 44 :: r4 => jparseN f .pairs (skipWs r4)
                | 125 :: r5 => some r5
                | _ => none) = some r := h2
              clear h2
              show (match skipWs r3 with
                | 44 :: r4 => jparseN g2 .pairs (skipWs r4)
                | 125 :: r5 => some r5
                | _ => none) = some r
              split at h3
              · exact ih g2 hfg _ _ _ h3
              · exact h3
              · exact h3
          · exact h2
      · exact h
    | items =>
      rw [jparseN_succ_items] at h ⊢
      cases hv : jparseN f .val cs with
      | none => rw [hv] at h; cases h
      | some r1 =>
        rw [hv] at h
        rw [ih g2 hfg _ _ _ hv]
        show (match skipWs r1 with
          | 44 :: r2 => jparseN g2 .items (skipWs r2)
          | 93 :: r3 => some r3
          | _ => none) = some r
        have h2 : (match skipWs r1 with
          | 44 :: r2 => jparseN f .items (skipWs r2)
          | 93 :: r3 => some r3
          | _ => none) = some r := h
        clear h
        split at h2
        · exact ih g2 hfg _ _ _ h2
        · exact h2
        · exact h2

theorem skipWs_head34 (x y : List Nat) : skipWs ((34 :: x) ++ y) = (34 :: x) ++ y := rfl

theorem jarrBody_nil : jarrBody [] = [93] := by
  conv_lhs => rw [jarrBody.eq_def]

theorem jarrBody_single (n : List Nat) : jarrBody [n] = jstr n ++ [93] := by
  conv_lhs => rw [jarrBody.eq_def]

theorem jarrBody_cons2 (n m : List Nat) (more : List (List Nat)) :
    jarrBody (n :: m :: more) = jstr n ++ (44 :: 32 :: jarrBody (m :: more)) := by
  conv_lhs => rw [jarrBody.eq_def]

theorem jarrBody_head34 (n : List Nat) (rest : List (List Nat)) :
    ∃ x, jarrBody (n :: rest) = 34 :: x := by
  cases rest with
  | nil =>
    exact ⟨(escStr n ++ [34]) ++ [93], by simp [jarrBody_single, jstr]⟩
  | cons m more =>
    exact ⟨(escStr n ++ [34]) ++ (44 :: 32 :: jarrBody (m :: more)),
      by simp [jarrBody_cons2, jstr]⟩

theorem jsonHexDigit_hexDigitCh (m : Nat) (hm : m < 16) :
    jsonHexDigit (hexDigitCh m) = true := by
  interval_cases m <;> decide

theorem jstrTail_quote (x : List Nat) : jstrTail (34 :: x) = some x := by
  rw [jstrTail_cons]
  simp

theorem jstrTail_plain (c : Nat) (x : List Nat) (h1 : 32 ≤ c) (h2 : c ≠ 34) (h3 : c ≠ 92) :
    jstrTail (c :: x) = jstrTail x := by
  rw [jstrTail_cons, if_neg h2, if_neg h3, if_pos h1]

theorem jstrTail_esc (e : Nat) (x : List Nat)
    (he : e = 34 ∨ e = 92 ∨ e = 47 ∨ e = 98 ∨ e = 102 ∨ e = 110 ∨ e = 114 ∨ e = 116) :
    jstrTail (92 :: e :: x) = jstrTail x := by
  rw [jstrTail_cons]
  simp [he]

theorem jstrTail_uesc (n : Nat) (x : List Nat) : jstrTail (uesc n ++ x) = jstrTail x := by
  show jstrTail (92 :: 117 :: hexDigitCh (n / 4096 % 16) :: hexDigitCh (n / 256 % 16)
    :: hexDigitCh (n / 16 % 16) :: hexDigitCh (n % 16) :: x) = jstrTail x
  rw [jstrTail_cons]
  simp [jsonHexDigit_hexDigitCh _ (Nat.mod_lt _ (by decide))]

theorem escChar_eq_uesc (c : Nat) (h34 : c ≠ 34) (h92 : c ≠ 92) (h8 : c ≠ 8) (h9 : c ≠ 9)
    (h10 : c ≠ 10) (h12 : c ≠ 12) (h13 : c ≠ 13)
    (hr : c < 32 ∨ (128 ≤ c ∧ c < 65536)) : escChar c = uesc c := by
  unfold escChar
  rw [if_neg h34, if_neg h92, if_neg h8, if_neg h9, if_neg h10, if_neg h12, if_neg h13]
  rcases hr with hlt | ⟨hge, hlt⟩
  · rw [if_pos hlt]
  · rw [if_neg (by omega), if_neg (by omega), if_pos hlt]

theorem escChar_eq_plain (c : Nat) (h34 : c ≠ 34) (h92 : c ≠ 92) (hge : 32 ≤ c)
    (hlt : c < 128) : escChar c = [c] := by
  unfold escChar
  have h8 : c ≠ 8 := by omega
  have h9 : c ≠ 9 := by omega
  have h10 : c ≠ 10 := by omega
  have h12 : c ≠ 12 := by omega
  have h13 : c ≠ 13 := by omega
  have hlo : ¬c < 32 := by omega
  rw [if_neg h34, if_neg h92, if_neg h8, if_neg h9, if_neg h10,
    if_neg h12, if_neg h13, if_neg hlo, if_pos hlt]

theorem escChar_eq_pair (c : Nat) (hge : 65536 ≤ c) :
    escChar c = uesc (55296 + (c - 65536) / 1024) ++ uesc (56320 + (c - 65536) % 1024) := by
  unfold escChar
  have h34 : c ≠ 34 := by omega
  have h92 : c ≠ 92 := by omega
  have h8 : c ≠ 8 := by omega
  have h9 : c ≠ 9 := by omega
  have h10 : c ≠ 10 := by omega
  have h12 : c ≠ 12 := by omega
  have h13 : c ≠ 13 := by omega
  have hlo : ¬c < 32 := by omega
  have hmid : ¬c < 128 := by omega
  have hbmp : ¬c < 65536 := by omega
  rw [if_neg h34, if_neg h92, if_neg h8, if_neg h9, if_neg h10,
    if_neg h12, if_neg h13, if_neg hlo, if_neg hmid, if_neg hbmp]

theorem escChar_append_jstrTail (c : Nat) (x : List Nat) :
    jstrTail (escChar c ++ x) = jstrTail x := by
  by_cases h34 : c = 34
  · subst h34; exact jstrTail_esc 34 x (by tauto)
  by_cases h92 : c = 92
  · subst h92; exact jstrTail_esc 92 x (by tauto)
  by_cases h8 : c = 8
  · subst h8; exact jstrTail_esc 98 x (by tauto)
  by_cases h9 : c = 9
  · subst h9; exact jstrTail_esc 116 x (by tauto)
  by_cases h10 : c = 10
  · subst h10; exact jstrTail_esc 110 x (by tauto)
  by_cases h12 : c = 12
  · subst h12; exact jstrTail_esc 102 x (by tauto)
  by_cases h13 : c = 13
  · subst h13; exact jstrTail_esc 114 x (by tauto)
  by_cases hlo : c < 32
  · rw [escChar_eq_uesc c h34 h92 h8 h9 h10 h12 h13 (Or.inl hlo)]
    exact jstrTail_uesc c x
  by_cases hmid : c < 128
  · rw [escChar_eq_plain c h34 h92 (by omega) hmid]
    exact jstrTail_plain c x (by omega) h34 h92
  by_cases hbmp : c < 65536
  · rw [escChar_eq_uesc c h34 h92 h8 h9 h10 h12 h13 (Or.inr ⟨by omega, hbmp⟩)]
    exact jstrTail_uesc c x
  · rw [escChar_eq_pair c (by omega), List.append_assoc, jstrTail_uesc, jstrTail_uesc]

theorem jstrTail_escStr : ∀ (s x : List Nat), jstrTail (escStr s ++ (34 :: x)) = some x
  | [], x => jstrTail_quote x
  | c :: s, x => by
    show jstrTail ((escChar c ++ escStr s) ++ (34 :: x)) = some x
    rw [List.append_assoc, escChar_append_jstrTail]
    exact jstrTail_escStr s x

theorem jstrTail_plainStr : ∀ (s x : List Nat),
    (∀ c ∈ s, 32 ≤ c ∧ c ≠ 34 ∧ c ≠ 92) → jstrTail (s ++ (34 :: x)) = some x
  | [], x, _ => jstrTail_quote x
  | c :: s, x, h => by
    have hc := h c (by simp)
    show jstrTail (c :: (s ++ (34 :: x))) = some x
    rw [jstrTail_plain c _ hc.1 hc.2.1 hc.2.2]
    exact jstrTail_plainStr s x (fun d hd => h d (List.mem_cons_of_mem c hd))

theorem jparseN_jstr (f : Nat) (s x : List Nat) :
    jparseN (f + 1) .val (jstr s ++ x) = some x := by
  show jparseN (f + 1) .val (34 :: ((escStr s ++ [34]) ++ x)) = some x
  have h : jparseN (f + 1) .val (34 :: ((escStr s ++ [34]) ++ x))
      = jstrTail ((escStr s ++ [34]) ++ x) := rfl
  rw [h, List.append_assoc]
  exact jstrTail_escStr s x

theorem jparseN_val34 (f : Nat) (y : List Nat) :
    jparseN (f + 1) .val (34 :: y) = jstrTail y := rfl

theorem jparseN_val91 (f : Nat) (y : List Nat) :
    jparseN (f + 1) .val (91 :: y)
      = (match skipWs y with
        | 93 :: r2 => some r2
        | cs2 => jparseN f .items cs2) := rfl

theorem jparseN_val123 (f : Nat) (y : List Nat) :
    jparseN (f + 1) .val (123 :: y)
      = (match skipWs y with
        | 125 :: r2 => some r2
        | cs2 => jparseN f .pairs cs2) := rfl

theorem jparseN_items_jarrBody : ∀ (ns : List (List Nat)), ns ≠ [] → ∀ (f : Nat),
    ns.length ≤ f → ∀ (tail : List Nat),
    jparseN (f + 1) .items (jarrBody ns ++ tail) = some tail
  | [], hne, _, _, _ => absurd rfl hne
  | [n], _, f, hf, tail => by
    rw [jparseN_succ_items]
    obtain ⟨f2, rfl⟩ : ∃ f2, f = f2 + 1 := ⟨f - 1, by simp at hf; omega⟩
    rw [show (jarrBody [n] ++ tail) = jstr n ++ (93 :: tail) by simp [jarrBody_single]]
    rw [jparseN_jstr]
    rfl
  | n :: m :: more, _, f, hf, tail => by
    rw [jparseN_succ_items]
    obtain ⟨f2, rfl⟩ : ∃ f2, f = f2 + 1 := ⟨f - 1, by simp at hf; omega⟩
    rw [show (jarrBody (n :: m :: more) ++ tail)
        = jstr n ++ (44 :: 32 :: (jarrBody (m :: more) ++ tail)) by simp [jarrBody_cons2]]
    rw [jparseN_jstr]
    show jparseN (f2 + 1) .items (skipWs (32 :: (jarrBody (m :: more) ++ tail))) = some tail
    rw [show skipWs (32 :: (jarrBody (m :: more) ++ tail))
        = skipWs (jarrBody (m :: more) ++ tail) from rfl]
    obtain ⟨x, hx⟩ := jarrBody_head34 m more
    rw [hx, skipWs_head34, ← hx]
    exact jparseN_items_jarrBody (m :: more) (by simp) f2 (by simp at hf ⊢; omega) tail

theorem jparseN_jarr (ns : List (List Nat)) (f : Nat) (hf : ns.length + 1 ≤ f)
    (tail : List Nat) : jparseN (f + 1) .val (jarr ns ++ tail) = some tail := by
  have hshape : jarr ns ++ tail = 91 :: (jarrBody ns ++ tail) := by simp [jarr]
  rw [hshape, jparseN_val91]
  cases ns with
  | nil =>
    rw [jarrBody_nil]
    rfl
  | cons n rest =>
    obtain ⟨x, hx⟩ := jarrBody_head34 n rest
    rw [hx, skipWs_head34]
    show jparseN f .items ((34 :: x) ++ tail) = some tail
    rw [← hx]
    obtain ⟨f2, rfl⟩ : ∃ f2, f = f2 + 1 := ⟨f - 1, by omega⟩
    exact jparseN_items_jarrBody (n :: rest) (by simp) f2 (by simp at hf ⊢; omega) tail

theorem skipWs_cons34 (x : List Nat) : skipWs (34 :: x) = 34 :: x := rfl

theorem jparseN_pairs_key (f : Nat) (k : List Nat)
    (hk : ∀ c ∈ k, 32 ≤ c ∧ c ≠ 34 ∧ c ≠ 92) (rest : List Nat) :
    jparseN (f + 1) .pairs (34 :: (k ++ (34 :: 58 :: rest)))
      = (match jparseN f .val (skipWs rest) with
        | none => none
        | some r3 =>
          match skipWs r3 with
          | 44 :: r4 => jparseN f .pairs (skipWs r4)
          | 125 :: r5 => some r5
          | _ => none) := by
  rw [jparseN_succ_pairs]
  show (match jstrTail (k ++ (34 :: 58 :: rest)) with
    | none => none
    | some r1 =>
      match skipWs r1 with
      | 58 :: r2 =>
        (match jparseN f .val (skipWs r2) with
        | none => none
        | some r3 =>
          match skipWs r3 with
          | 44 :: r4 => jparseN f .pairs (skipWs r4)
          | 125 :: r5 => some r5
          | _ => none)
      | _ => none) = _
  rw [jstrTail_plainStr k (58 :: rest) hk]
  rfl

theorem jparseN_errEnvelope (f : Nat) (msg : List Nat)
    (hsafe : ∀ c ∈ msg, 32 ≤ c ∧ c ≠ 34 ∧ c ≠ 92) :
    jparseN (f + 9) .val (errEnvelope msg) = some [] := by
  show jparseN ((f + 8) + 1) .val (123 ::
    (34 :: (txt "status" ++ (34 :: 58 :: (34 :: (txt "ERROR" ++ (34 :: 44 :: (34 ::
      (txt "data" ++ (34 :: 58 :: (34 :: (msg ++ [34, 125]))))))))))))
    = some []
  rw [jparseN_val123]
  show jparseN ((f + 7) + 1) .pairs
    (34 :: (txt "status" ++ (34 :: 58 :: (34 :: (txt "ERROR" ++ (34 :: 44 :: (34 ::
      (txt "data" ++ (34 :: 58 :: (34 :: (msg ++ [34, 125]))))))))))) = some []
  rw [jparseN_pairs_key (f + 7) (txt "status") (by decide)]
  have hv1 : jparseN (f + 7) .val (skipWs (34 :: (txt "ERROR" ++ (34 :: 44 :: (34 ::
      (txt "data" ++ (34 :: 58 :: (34 :: (msg ++ [34, 125])))))))))
      = some (44 :: (34 :: (txt "data" ++ (34 :: 58 :: (34 :: (msg ++ [34, 125])))))) := by
    rw [skipWs_cons34]
    show jparseN ((f + 6) + 1) .val (34 :: (txt "ERROR" ++ (34 :: 44 :: (34 ::
      (txt "data" ++ (34 :: 58 :: (34 :: (msg ++ [34, 125])))))))) = _
    rw [jparseN_val34]
    exact jstrTail_plainStr (txt "ERROR") _ (by decide)
  rw [hv1]
  show jparseN (f + 7) .pairs
    (skipWs (34 :: (txt "data" ++ (34 :: 58 :: (34 :: (msg ++ [34, 125])))))) = some []
  rw [skipWs_cons34]
  show jparseN ((f + 6) + 1) .pairs
    (34 :: (txt "data" ++ (34 :: 58 :: (34 :: (msg ++ [34, 125]))))) = some []
  rw [jparseN_pairs_key (f + 6) (txt "data") (by decide)]
  have hv2 : jparseN (f + 6) .val (skipWs (34 :: (msg ++ [34, 125]))) = some [125] := by
    rw [skipWs_cons34]
    show jparseN ((f + 5) + 1) .val (34 :: (msg ++ [34, 125])) = _
    rw [jparseN_val34]
    exact jstrTail_plainStr msg [125] hsafe
  rw [hv2]
  rfl

theorem jparseN_okList (f : Nat) (ns : List (List Nat)) :
    jparseN (f + ns.length + 8) .val (serializeResp (.okList ns)) = some [] := by
  show jparseN ((f + ns.length + 7) + 1) .val (123 ::
    (34 :: (txt "status" ++ (34 :: 58 :: (32 :: (34 :: (txt "OK" ++ (34 :: 44 :: 32 :: (34 ::
      (txt "data" ++ (34 :: 58 :: (32 :: (jarr ns ++ [125]))))))))))))) = some []
  rw [jparseN_val123]
  show jparseN ((f + ns.length + 6) + 1) .pairs
    (34 :: (txt "status" ++ (34 :: 58 :: (32 :: (34 :: (txt "OK" ++ (34 :: 44 :: 32 :: (34 ::
      (txt "data" ++ (34 :: 58 :: (32 :: (jarr ns ++ [125])))))))))))) = some []
  rw [jparseN_pairs_key _ (txt "status") (by decide)]
  have hv1 : jparseN (f + ns.length + 6) .val
      (skipWs (32 :: (34 :: (txt "OK" ++ (34 :: 44 :: 32 :: (34 ::
        (txt "data" ++ (34 :: 58 :: (32 :: (jarr ns ++ [125]))))))))))
      = some (44 :: 32 :: (34 :: (txt "data" ++ (34 :: 58 :: (32 :: (jarr ns ++ [125])))))) := by
    rw [show skipWs (32 :: (34 :: (txt "OK" ++ (34 :: 44 :: 32 :: (34 ::
        (txt "data" ++ (34 :: 58 :: (32 :: (jarr ns ++ [125]))))))))) = 34 :: (txt "OK"
        ++ (34 :: 44 :: 32 :: (34 :: (txt "data" ++ (34 :: 58 :: (32 :: (jarr ns ++ [125])))))))
      from rfl]
    show jparseN ((f + ns.length + 5) + 1) .val _ = _
    rw [jparseN_val34]
    exact jstrTail_plainStr (txt "OK") _ (by decide)
  rw [hv1]
  show jparseN (f + ns.length + 6) .pairs
    (skipWs (32 :: (34 :: (txt "data" ++ (34 :: 58 :: (32 :: (jarr ns ++ [125]))))))) = some []
  rw [show skipWs (32 :: (34 :: (txt "data" ++ (34 :: 58 :: (32 :: (jarr ns ++ [125]))))))
      = 34 :: (txt "data" ++ (34 :: 58 :: (32 :: (jarr ns ++ [125])))) from rfl]
  show jparseN ((f + ns.length + 5) + 1) .pairs
    (34 :: (txt "data" ++ (34 :: 58 :: (32 :: (jarr ns ++ [125]))))) = some []
  rw [jparseN_pairs_key _ (txt "data") (by decide)]
  have hv2 : jparseN (f + ns.length + 5) .val (skipWs (32 :: (jarr ns ++ [125])))
      = some [125] := by
    rw [show skipWs (32 :: (jarr ns ++ [125])) = jarr ns ++ [125] from rfl]
    show jparseN ((f + ns.length + 4) + 1) .val (jarr ns ++ [125]) = some [125]
    exact jparseN_jarr ns (f + ns.length + 4) (by omega) [125]
  rw [hv2]
  rfl

theorem jparseN_errResp (f : Nat) (m : List Nat) :
    jparseN (f + 9) .val (serializeResp (.errResp m)) = some [] := by
  show jparseN ((f + 8) + 1) .val (123 ::
    (34 :: (txt "status" ++ (34 :: 58 :: (32 :: (34 :: (txt "ERROR" ++ (34 :: 44 :: 32 :: (34 ::
      (txt "data" ++ (34 :: 58 :: (32 :: (jstr m ++ [125]))))))))))))) = some []
  rw [jparseN_val123]
  show jparseN ((f + 7) + 1) .pairs
    (34 :: (txt "status" ++ (34 :: 58 :: (32 :: (34 :: (txt "ERROR" ++ (34 :: 44 :: 32 :: (34 ::
      (txt "data" ++ (34 :: 58 :: (32 :: (jstr m ++ [125])))))))))))) = some []
  rw [jparseN_pairs_key _ (txt "status") (by decide)]
  have hv1 : jparseN (f + 7) .val
      (skipWs (32 :: (34 :: (txt "ERROR" ++ (34 :: 44 :: 32 :: (34 ::
        (txt "data" ++ (34 :: 58 :: (32 :: (jstr m ++ [125]))))))))))
      = some (44 :: 32 :: (34 :: (txt "data" ++ (34 :: 58 :: (32 :: (jstr m ++ [125])))))) := by
    rw [show skipWs (32 :: (34 :: (txt "ERROR" ++ (34 :: 44 :: 32 :: (34 ::
        (txt "data" ++ (34 :: 58 :: (32 :: (jstr m ++ [125]))))))))) = 34 :: (txt "ERROR"
        ++ (34 :: 44 :: 32 :: (34 :: (txt "data" ++ (34 :: 58 :: (32 :: (jstr m ++ [125])))))))
      from rfl]
    show jparseN ((f + 6) + 1) .val _ = _
    rw [jparseN_val34]
    exact jstrTail_plainStr (txt "ERROR") _ (by decide)
  rw [hv1]
  show jparseN (f + 7) .pairs
    (skipWs (32 :: (34 :: (txt "data" ++ (34 :: 58 :: (32 :: (jstr m ++ [125]))))))) = some []
  rw [show skipWs (32 :: (34 :: (txt "data" ++ (34 :: 58 :: (32 :: (jstr m ++ [125]))))))
      = 34 :: (txt "data" ++ (34 :: 58 :: (32 :: (jstr m ++ [125])))) from rfl]
  show jparseN ((f + 6) + 1) .pairs
    (34 :: (txt "data" ++ (34 :: 58 :: (32 :: (jstr m ++ [125]))))) = some []
  rw [jparseN_pairs_key _ (txt "data") (by decide)]
  have hv2 : jparseN (f + 6) .val (skipWs (32 :: (jstr m ++ [125]))) = some [125] := by
    rw [show skipWs (32 :: (jstr m ++ [125])) = jstr m ++ [125] from rfl]
    show jparseN ((f + 5) + 1) .val (jstr m ++ [125]) = some [125]
    exact jparseN_jstr (f + 5) m [125]
  rw [hv2]
  rfl


theorem jparseN_okGet (f : Nat) (n d : List Nat) :
    jparseN (f + 10) .val (serializeResp (.okGet n d)) = some [] := by
  have hshape : serializeResp (.okGet n d) = 123 :: (34 :: (txt "status" ++ (34 :: (58 :: (32 :: (34 :: (txt "OK" ++ (34 :: (44 :: (32 :: (34 :: (txt "data_namafile" ++ (34 :: (58 :: (32 :: (jstr n ++ (44 :: (32 :: (34 :: (txt "data_file" ++ (34 :: (58 :: (32 :: (jstr d ++ ([125]))))))))))))))))))))))))) := by
    show 123 :: (txt "\"status\": \"OK\", \"data_namafile\": " ++ jstr n
      ++ txt ", \"data_file\": " ++ jstr d ++ [125]) = _
    rw [show (txt "\"status\": \"OK\", \"data_namafile\": ")
        = 34 :: (txt "status" ++ (34 :: 58 :: 32 :: (34 :: (txt "OK"
          ++ (34 :: 44 :: 32 :: (34 :: (txt "data_namafile" ++ [34, 58, 32])))))))
        from rfl,
      show (txt ", \"data_file\": ") = 44 :: 32 :: (34 :: (txt "data_file" ++ [34, 58, 32]))
        from rfl]
    simp [List.cons_append, List.append_assoc]
  rw [hshape]
  show jparseN ((f + 9) + 1) .val (123 :: (34 :: (txt "status" ++ (34 :: (58 :: (32 :: (34 :: (txt "OK" ++ (34 :: (44 :: (32 :: (34 :: (txt "data_namafile" ++ (34 :: (58 :: (32 :: (jstr n ++ (44 :: (32 :: (34 :: (txt "data_file" ++ (34 :: (58 :: (32 :: (jstr d ++ ([125])))))))))))))))))))))))))) = some []
  rw [jparseN_val123]
  show jparseN ((f + 8) + 1) .pairs (34 :: (txt "status" ++ (34 :: (58 :: (32 :: (34 :: (txt "OK" ++ (34 :: (44 :: (32 :: (34 :: (txt "data_namafile" ++ (34 :: (58 :: (32 :: (jstr n ++ (44 :: (32 :: (34 :: (txt "data_file" ++ (34 :: (58 :: (32 :: (jstr d ++ ([125]))))))))))))))))))))))))) = some []
  rw [jparseN_pairs_key _ (txt "status") (by decide)]
  have hv1 : jparseN (f + 8) .val (skipWs (32 :: (34 :: (txt "OK" ++ (34 :: (44 :: (32 :: (34 :: (txt "data_namafile" ++ (34 :: (58 :: (32 :: (jstr n ++ (44 :: (32 :: (34 :: (txt "data_file" ++ (34 :: (58 :: (32 :: (jstr d ++ ([125]))))))))))))))))))))))
      = some (44 :: (32 :: (34 :: (txt "data_namafile" ++ (34 :: (58 :: (32 :: (jstr n ++ (44 :: (32 :: (34 :: (txt "data_file" ++ (34 :: (58 :: (32 :: (jstr d ++ ([125]))))))))))))))))) := by
    rw [show skipWs (32 :: (34 :: (txt "OK" ++ (34 :: (44 :: (32 :: (34 :: (txt "data_namafile" ++ (34 :: (58 :: (32 :: (jstr n ++ (44 :: (32 :: (34 :: (txt "data_file" ++ (34 :: (58 :: (32 :: (jstr d ++ ([125]))))))))))))))))))))) = 34 :: (txt "OK" ++ (34 :: (44 :: (32 :: (34 :: (txt "data_namafile" ++ (34 :: (58 :: (32 :: (jstr n ++ (44 :: (32 :: (34 :: (txt "data_file" ++ (34 :: (58 :: (32 :: (jstr d ++ ([125]))))))))))))))))))) from rfl]
    show jparseN ((f + 7) + 1) .val (34 :: (txt "OK" ++ (34 :: (44 :: (32 :: (34 :: (txt "data_namafile" ++ (34 :: (58 :: (32 :: (jstr n ++ (44 :: (32 :: (34 :: (txt "data_file" ++ (34 :: (58 :: (32 :: (jstr d ++ ([125])))))))))))))))))))) = some (44 :: (32 :: (34 :: (txt "data_namafile" ++ (34 :: (58 :: (32 :: (jstr n ++ (44 :: (32 :: (34 :: (txt "data_file" ++ (34 :: (58 :: (32 :: (jstr d ++ ([125])))))))))))))))))
    rw [jparseN_val34]
    exact jstrTail_plainStr (txt "OK") _ (by decide)
  rw [hv1]
  show jparseN (f + 8) .pairs (skipWs (32 :: (34 :: (txt "data_namafile" ++ (34 :: (58 :: (32 :: (jstr n ++ (44 :: (32 :: (34 :: (txt "data_file" ++ (34 :: (58 :: (32 :: (jstr d ++ ([125]))))))))))))))))) = some []
  rw [show skipWs (32 :: (34 :: (txt "data_namafile" ++ (34 :: (58 :: (32 :: (jstr n ++ (44 :: (32 :: (34 :: (txt "data_file" ++ (34 :: (58 :: (32 :: (jstr d ++ ([125])))))))))))))))) = 34 :: (txt "data_namafile" ++ (34 :: (58 :: (32 :: (jstr n ++ (44 :: (32 :: (34 :: (txt "data_file" ++ (34 :: (58 :: (32 :: (jstr d ++ ([125])))))))))))))) from rfl]
  show jparseN ((f + 7) + 1) .pairs (34 :: (txt "data_namafile" ++ (34 :: (58 :: (32 :: (jstr n ++ (44 :: (32 :: (34 :: (txt "data_file" ++ (34 :: (58 :: (32 :: (jstr d ++ ([125]))))))))))))))) = some []
  rw [jparseN_pairs_key _ (txt "data_namafile") (by decide)]
  have hv2 : jparseN (f + 7) .val (skipWs (32 :: (jstr n ++ (44 :: (32 :: (34 :: (txt "data_file" ++ (34 :: (58 :: (32 :: (jstr d ++ ([125]))))))))))))
      = some (44 :: (32 :: (34 :: (txt "data_file" ++ (34 :: (58 :: (32 :: (jstr d ++ ([125]))))))))) := by
    rw [show skipWs (32 :: (jstr n ++ (44 :: (32 :: (34 :: (txt "data_file" ++ (34 :: (58 :: (32 :: (jstr d ++ ([125]))))))))))) = jstr n ++ (44 :: (32 :: (34 :: (txt "data_file" ++ (34 :: (58 :: (32 :: (jstr d ++ ([125]))))))))) from rfl]
    show jparseN ((f + 6) + 1) .val (jstr n ++ (44 :: (32 :: (34 :: (txt "data_file" ++ (34 :: (58 :: (32 :: (jstr d ++ ([125])))))))))) = some (44 :: (32 :: (34 :: (txt "data_file" ++ (34 :: (58 :: (32 :: (jstr d ++ ([125])))))))))
    exact jparseN_jstr (f + 6) n _
  rw [hv2]
  show jparseN (f + 7) .pairs (skipWs (32 :: (34 :: (txt "data_file" ++ (34 :: (58 :: (32 :: (jstr d ++ ([125]))))))))) = some []
  rw [show skipWs (32 :: (34 :: (txt "data_file" ++ (34 :: (58 :: (32 :: (jstr d ++ ([125])))))))) = 34 :: (txt "data_file" ++ (34 :: (58 :: (32 :: (jstr d ++ ([125])))))) from rfl]
  show jparseN ((f + 6) + 1) .pairs (34 :: (txt "data_file" ++ (34 :: (58 :: (32 :: (jstr d ++ ([125]))))))) = some []
  rw [jparseN_pairs_key _ (txt "data_file") (by decide)]
  have hv3 : jparseN (f + 6) .val (skipWs (32 :: (jstr d ++ ([125])))) = some [125] := by
    rw [show skipWs (32 :: (jstr d ++ ([125]))) = jstr d ++ ([125]) from rfl]
    show jparseN ((f + 5) + 1) .val (jstr d ++ ([125])) = some [125]
    exact jparseN_jstr (f + 5) d [125]
  rw [hv3]
  rfl


theorem jparseN_okUpload (f : Nat) (p : List Nat) :
    jparseN (f + 10) .val (serializeResp (.okUpload p)) = some [] := by
  have hshape : serializeResp (.okUpload p) = 123 :: (34 :: (txt "status" ++ (34 :: (58 :: (32 :: (34 :: (txt "OK" ++ (34 :: (44 :: (32 :: (34 :: (txt "message" ++ (34 :: (58 :: (32 :: (34 :: (txt "File uploaded successfully" ++ (34 :: (44 :: (32 :: (34 :: (txt "data" ++ (34 :: (58 :: (32 :: (123 :: (34 :: (txt "file_path" ++ (34 :: (58 :: (32 :: (34 :: (escStr p ++ (34 :: (125 :: ([125])))))))))))))))))))))))))))))))))))) := by
    show 123 :: (txt "\"status\": \"OK\", \"message\": \"File uploaded successfully\", \"data\": "
      ++ (123 :: (txt "\"file_path\": " ++ jstr p ++ [125])) ++ [125]) = _
    rw [show (txt "\"status\": \"OK\", \"message\": \"File uploaded successfully\", \"data\": ")
        = 34 :: (txt "status" ++ (34 :: (58 :: (32 :: (34 :: (txt "OK" ++ (34 :: (44 :: (32 :: (34 :: (txt "message" ++ (34 :: (58 :: (32 :: (34 :: (txt "File uploaded successfully" ++ (34 :: (44 :: (32 :: (34 :: (txt "data" ++ ([34, 58, 32]))))))))))))))))))))))
        from rfl,
      show (txt "\"file_path\": ") = 34 :: (txt "file_path" ++ [34, 58, 32]) from rfl]
    simp [jstr, List.cons_append, List.append_assoc]
  rw [hshape]
  show jparseN ((f + 9) + 1) .val (123 :: (34 :: (txt "status" ++ (34 :: (58 :: (32 :: (34 :: (txt "OK" ++ (34 :: (44 :: (32 :: (34 :: (txt "message" ++ (34 :: (58 :: (32 :: (34 :: (txt "File uploaded successfully" ++ (34 :: (44 :: (32 :: (34 :: (txt "data" ++ (34 :: (58 :: (32 :: (123 :: (34 :: (txt "file_path" ++ (34 :: (58 :: (32 :: (34 :: (escStr p ++ (34 :: (125 :: ([125]))))))))))))))))))))))))))))))))))))) = some []
  rw [jparseN_val123]
  show jparseN ((f + 8) + 1) .pairs (34 :: (txt "status" ++ (34 :: (58 :: (32 :: (34 :: (txt "OK" ++ (34 :: (44 :: (32 :: (34 :: (txt "message" ++ (34 :: (58 :: (32 :: (34 :: (txt "File uploaded successfully" ++ (34 :: (44 :: (32 :: (34 :: (txt "data" ++ (34 :: (58 :: (32 :: (123 :: (34 :: (txt "file_path" ++ (34 :: (58 :: (32 :: (34 :: (escStr p ++ (34 :: (125 :: ([125])))))))))))))))))))))))))))))))))))) = some []
  rw [jparseN_pairs_key _ (txt "status") (by decide)]
  have hv1 : jparseN (f + 8) .val (skipWs (32 :: (34 :: (txt "OK" ++ (34 :: (44 :: (32 :: (34 :: (txt "message" ++ (34 :: (58 :: (32 :: (34 :: (txt "File uploaded successfully" ++ (34 :: (44 :: (32 :: (34 :: (txt "data" ++ (34 :: (58 :: (32 :: (123 :: (34 :: (txt "file_path" ++ (34 :: (58 :: (32 :: (34 :: (escStr p ++ (34 :: (125 :: ([125])))))))))))))))))))))))))))))))))
      = some (44 :: (32 :: (34 :: (txt "message" ++ (34 :: (58 :: (32 :: (34 :: (txt "File uploaded successfully" ++ (34 :: (44 :: (32 :: (34 :: (txt "data" ++ (34 :: (58 :: (32 :: (123 :: (34 :: (txt "file_path" ++ (34 :: (58 :: (32 :: (34 :: (escStr p ++ (34 :: (125 :: ([125])))))))))))))))))))))))))))) := by
    rw [show skipWs (32 :: (34 :: (txt "OK" ++ (34 :: (44 :: (32 :: (34 :: (txt "message" ++ (34 :: (58 :: (32 :: (34 :: (txt "File uploaded successfully" ++ (34 :: (44 :: (32 :: (34 :: (txt "data" ++ (34 :: (58 :: (32 :: (123 :: (34 :: (txt "file_path" ++ (34 :: (58 :: (32 :: (34 :: (escStr p ++ (34 :: (125 :: ([125])))))))))))))))))))))))))))))))) = 34 :: (txt "OK" ++ (34 :: (44 :: (32 :: (34 :: (txt "message" ++ (34 :: (58 :: (32 :: (34 :: (txt "File uploaded successfully" ++ (34 :: (44 :: (32 :: (34 :: (txt "data" ++ (34 :: (58 :: (32 :: (123 :: (34 :: (txt "file_path" ++ (34 :: (58 :: (32 :: (34 :: (escStr p ++ (34 :: (125 :: ([125])))))))))))))))))))))))))))))) from rfl]
    show jparseN ((f + 7) + 1) .val (34 :: (txt "OK" ++ (34 :: (44 :: (32 :: (34 :: (txt "message" ++ (34 :: (58 :: (32 :: (34 :: (txt "File uploaded successfully" ++ (34 :: (44 :: (32 :: (34 :: (txt "data" ++ (34 :: (58 :: (32 :: (123 :: (34 :: (txt "file_path" ++ (34 :: (58 :: (32 :: (34 :: (escStr p ++ (34 :: (125 :: ([125]))))))))))))))))))))))))))))))) = some (44 :: (32 :: (34 :: (txt "message" ++ (34 :: (58 :: (32 :: (34 :: (txt "File uploaded successfully" ++ (34 :: (44 :: (32 :: (34 :: (txt "data" ++ (34 :: (58 :: (32 :: (123 :: (34 :: (txt "file_path" ++ (34 :: (58 :: (32 :: (34 :: (escStr p ++ (34 :: (125 :: ([125]))))))))))))))))))))))))))))
    rw [jparseN_val34]
    exact jstrTail_plainStr (txt "OK") _ (by decide)
  rw [hv1]
  show jparseN (f + 8) .pairs (skipWs (32 :: (34 :: (txt "message" ++ (34 :: (58 :: (32 :: (34 :: (txt "File uploaded successfully" ++ (34 :: (44 :: (32 :: (34 :: (txt "data" ++ (34 :: (58 :: (32 :: (123 :: (34 :: (txt "file_path" ++ (34 :: (58 :: (32 :: (34 :: (escStr p ++ (34 :: (125 :: ([125])))))))))))))))))))))))))))) = some []
  rw [show skipWs (32 :: (34 :: (txt "message" ++ (34 :: (58 :: (32 :: (34 :: (txt "File uploaded successfully" ++ (34 :: (44 :: (32 :: (34 :: (txt "data" ++ (34 :: (58 :: (32 :: (123 :: (34 :: (txt "file_path" ++ (34 :: (58 :: (32 :: (34 :: (escStr p ++ (34 :: (125 :: ([125]))))))))))))))))))))))))))) = 34 :: (txt "message" ++ (34 :: (58 :: (32 :: (34 :: (txt "File uploaded successfully" ++ (34 :: (44 :: (32 :: (34 :: (txt "data" ++ (34 :: (58 :: (32 :: (123 :: (34 :: (txt "file_path" ++ (34 :: (58 :: (32 :: (34 :: (escStr p ++ (34 :: (125 :: ([125]))))))))))))))))))))))))) from rfl]
  show jparseN ((f + 7) + 1) .pairs (34 :: (txt "message" ++ (34 :: (58 :: (32 :: (34 :: (txt "File uploaded successfully" ++ (34 :: (44 :: (32 :: (34 :: (txt "data" ++ (34 :: (58 :: (32 :: (123 :: (34 :: (txt "file_path" ++ (34 :: (58 :: (32 :: (34 :: (escStr p ++ (34 :: (125 :: ([125])))))))))))))))))))))))))) = some []
  rw [jparseN_pairs_key _ (txt "message") (by decide)]
  have hv2 : jparseN (f + 7) .val (skipWs (32 :: (34 :: (txt "File uploaded successfully" ++ (34 :: (44 :: (32 :: (34 :: (txt "data" ++ (34 :: (58 :: (32 :: (123 :: (34 :: (txt "file_path" ++ (34 :: (58 :: (32 :: (34 :: (escStr p ++ (34 :: (125 :: ([125])))))))))))))))))))))))
      = some (44 :: (32 :: (34 :: (txt "data" ++ (34 :: (58 :: (32 :: (123 :: (34 :: (txt "file_path" ++ (34 :: (58 :: (32 :: (34 :: (escStr p ++ (34 :: (125 :: ([125])))))))))))))))))) := by
    rw [show skipWs (32 :: (34 :: (txt "File uploaded successfully" ++ (34 :: (44 :: (32 :: (34 :: (txt "data" ++ (34 :: (58 :: (32 :: (123 :: (34 :: (txt "file_path" ++ (34 :: (58 :: (32 :: (34 :: (escStr p ++ (34 :: (125 :: ([125])))))))))))))))))))))) = 34 :: (txt "File uploaded successfully" ++ (34 :: (44 :: (32 :: (34 :: (txt "data" ++ (34 :: (58 :: (32 :: (123 :: (34 :: (txt "file_path" ++ (34 :: (58 :: (32 :: (34 :: (escStr p ++ (34 :: (125 :: ([125])))))))))))))))))))) from rfl]
    show jparseN ((f + 6) + 1) .val (34 :: (txt "File uploaded successfully" ++ (34 :: (44 :: (32 :: (34 :: (txt "data" ++ (34 :: (58 :: (32 :: (123 :: (34 :: (txt "file_path" ++ (34 :: (58 :: (32 :: (34 :: (escStr p ++ (34 :: (125 :: ([125]))))))))))))))))))))) = some (44 :: (32 :: (34 :: (txt "data" ++ (34 :: (58 :: (32 :: (123 :: (34 :: (txt "file_path" ++ (34 :: (58 :: (32 :: (34 :: (escStr p ++ (34 :: (125 :: ([125]))))))))))))))))))
    rw [jparseN_val34]
    exact jstrTail_plainStr (txt "File uploaded successfully") _ (by decide)
  rw [hv2]
  show jparseN (f + 7) .pairs (skipWs (32 :: (34 :: (txt "data" ++ (34 :: (58 :: (32 :: (123 :: (34 :: (txt "file_path" ++ (34 :: (58 :: (32 :: (34 :: (escStr p ++ (34 :: (125 :: ([125])))))))))))))))))) = some []
  rw [show skipWs (32 :: (34 :: (txt "data" ++ (34 :: (58 :: (32 :: (123 :: (34 :: (txt "file_path" ++ (34 :: (58 :: (32 :: (34 :: (escStr p ++ (34 :: (125 :: ([125]))))))))))))))))) = 34 :: (txt "data" ++ (34 :: (58 :: (32 :: (123 :: (34 :: (txt "file_path" ++ (34 :: (58 :: (32 :: (34 :: (escStr p ++ (34 :: (125 :: ([125]))))))))))))))) from rfl]
  show jparseN ((f + 6) + 1) .pairs (34 :: (txt "data" ++ (34 :: (58 :: (32 :: (123 :: (34 :: (txt "file_path" ++ (34 :: (58 :: (32 :: (34 :: (escStr p ++ (34 :: (125 :: ([125])))))))))))))))) = some []
  rw [jparseN_pairs_key _ (txt "data") (by decide)]
  have hv3 : jparseN (f + 6) .val (skipWs (32 :: (123 :: (34 :: (txt "file_path" ++ (34 :: (58 :: (32 :: (34 :: (escStr p ++ (34 :: (125 :: ([125]))))))))))))) = some [125] := by
    rw [show skipWs (32 :: (123 :: (34 :: (txt "file_path" ++ (34 :: (58 :: (32 :: (34 :: (escStr p ++ (34 :: (125 :: ([125])))))))))))) = 123 :: (34 :: (txt "file_path" ++ (34 :: (58 :: (32 :: (34 :: (escStr p ++ (34 :: (125 :: ([125])))))))))) from rfl]
    show jparseN ((f + 5) + 1) .val (123 :: (34 :: (txt "file_path" ++ (34 :: (58 :: (32 :: (34 :: (escStr p ++ (34 :: (125 :: ([125]))))))))))) = some [125]
    rw [jparseN_val123]
    show jparseN ((f + 4) + 1) .pairs (34 :: (txt "file_path" ++ (34 :: (58 :: (32 :: (34 :: (escStr p ++ (34 :: (125 :: ([125])))))))))) = some [125]
    rw [jparseN_pairs_key _ (txt "file_path") (by decide)]
    have hvp : jparseN (f + 4) .val (skipWs (32 :: (34 :: (escStr p ++ (34 :: (125 :: ([125])))))))
        = some (125 :: [125]) := by
      rw [show skipWs (32 :: (34 :: (escStr p ++ (34 :: (125 :: ([125])))))) = 34 :: (escStr p ++ (34 :: (125 :: ([125])))) from rfl]
      show jparseN ((f + 3) + 1) .val (34 :: (escStr p ++ (34 :: (125 :: ([125]))))) = some (125 :: [125])
      rw [jparseN_val34]
      exact jstrTail_escStr p (125 :: [125])
    rw [hvp]
    rfl
  rw [hv3]
  rfl

theorem jarrBody_length : ∀ ns : List (List Nat), ns.length + 1 ≤ (jarrBody ns).length
  | [] => by rw [jarrBody_nil]; decide
  | [n] => by rw [jarrBody_single]; simp [jstr]
  | n :: m :: more => by
    rw [jarrBody_cons2]
    have ih := jarrBody_length (m :: more)
    simp [jstr] at ih ⊢
    omega

theorem jsonWf_errEnvelope (msg : List Nat)
    (hsafe : ∀ c ∈ msg, 32 ≤ c ∧ c ≠ 34 ∧ c ≠ 92) :
    jsonWf (errEnvelope msg) = true := by
  unfold jsonWf
  rw [show skipWs (errEnvelope msg) = errEnvelope msg from rfl]
  have hlen : (errEnvelope msg).length = 28 + msg.length := by
    show (123 :: (txt "\"status\":\"ERROR\",\"data\":\"" ++ (msg ++ [34, 125]))).length
      = 28 + msg.length
    rw [List.length_cons, List.length_append, List.length_append,
      show (txt "\"status\":\"ERROR\",\"data\":\"").length = 25 from rfl]
    simp
    omega
  have hb : 0 + 9 ≤ 2 * (errEnvelope msg).length + 2 := by
    rw [hlen]
    omega
  rw [jparseN_mono (0 + 9) (2 * (errEnvelope msg).length + 2) hb .val
    (errEnvelope msg) [] (jparseN_errEnvelope 0 msg hsafe)]
  rfl

theorem jsonWf_serializeResp (r : Resp) : jsonWf (serializeResp r) = true := by
  cases r with
  | okList ns =>
    unfold jsonWf
    rw [show skipWs (serializeResp (.okList ns)) = serializeResp (.okList ns) from rfl]
    have hj := jarrBody_length ns
    have hlen : (serializeResp (.okList ns)).length = 27 + (jarrBody ns).length := by
      show (123 :: (txt "\"status\": \"OK\", \"data\": " ++ jarr ns ++ [125])).length = _
      simp [jarr, show (txt "\"status\": \"OK\", \"data\": ").length = 24 from rfl]
      omega
    have hb : 0 + ns.length + 8 ≤ 2 * (serializeResp (.okList ns)).length + 2 := by
      rw [hlen]
      omega
    rw [jparseN_mono (0 + ns.length + 8) (2 * (serializeResp (.okList ns)).length + 2)
      hb .val (serializeResp (.okList ns)) [] (jparseN_okList 0 ns)]
    rfl
  | okGet n d =>
    unfold jsonWf
    rw [show skipWs (serializeResp (.okGet n d)) = serializeResp (.okGet n d) from rfl]
    have hlen : 4 ≤ (serializeResp (.okGet n d)).length := by
      show 4 ≤ (123 :: (txt "\"status\": \"OK\", \"data_namafile\": " ++ jstr n
        ++ txt ", \"data_file\": " ++ jstr d ++ [125])).length
      simp [show (txt "\"status\": \"OK\", \"data_namafile\": ").length = 33 from rfl]
      omega
    have hb : 0 + 10 ≤ 2 * (serializeResp (.okGet n d)).length + 2 := by omega
    rw [jparseN_mono (0 + 10) (2 * (serializeResp (.okGet n d)).length + 2)
      hb .val (serializeResp (.okGet n d)) [] (jparseN_okGet 0 n d)]
    rfl
  | okUpload p =>
    unfold jsonWf
    rw [show skipWs (serializeResp (.okUpload p)) = serializeResp (.okUpload p) from rfl]
    have hlen : 4 ≤ (serializeResp (.okUpload p)).length := by
      show 4 ≤ (123 :: (txt "\"status\": \"OK\", \"message\": \"File uploaded successfully\", \"data\": "
        ++ (123 :: (txt "\"file_path\": " ++ jstr p ++ [125])) ++ [125])).length
      simp
      omega
    have hb : 0 + 10 ≤ 2 * (serializeResp (.okUpload p)).length + 2 := by omega
    rw [jparseN_mono (0 + 10) (2 * (serializeResp (.okUpload p)).length + 2)
      hb .val (serializeResp (.okUpload p)) [] (jparseN_okUpload 0 p)]
    rfl
  | okDelete => decide
  | errResp m =>
    unfold jsonWf
    rw [show skipWs (serializeResp (.errResp m)) = serializeResp (.errResp m) from rfl]
    have hlen : 4 ≤ (serializeResp (.errResp m)).length := by
      show 4 ≤ (123 :: (txt "\"status\": \"ERROR\", \"data\": " ++ jstr m ++ [125])).length
      simp [show (txt "\"status\": \"ERROR\", \"data\": ").length = 27 from rfl]
      omega
    have hb : 0 + 9 ≤ 2 * (serializeResp (.errResp m)).length + 2 := by omega
    rw [jparseN_mono (0 + 9) (2 * (serializeResp (.errResp m)).length + 2)
      hb .val (serializeResp (.errResp m)) [] (jparseN_errResp 0 m)]
    rfl
  | nullResp => decide

theorem handleLine_out (hash : List Nat → List Nat) (c : Core) (l : List Nat) :
    ∀ o ∈ (handleLine hash c l).out, o ∈ c.out ∨ goodPayload o := by
  intro o ho
  unfold handleLine at ho
  by_cases hcl : c.closed = true
  · rw [if_pos hcl] at ho
    exact Or.inl ho
  · rw [if_neg hcl] at ho
    by_cases hup : c.uploading = true
    · rw [if_pos hup] at ho
      by_cases hend : stripWs l = txt "ENDUPLOAD"
      · rw [if_pos hend] at ho
        have hx : o ∈ c.out ++ [serializeResp (proses_string hash c.fs
            (txt "UPLOAD " ++ (c.tempPath.getD []))).1 ++ crlf2] := ho
        rcases List.mem_append.mp hx with h | h
        · exact Or.inl h
        · exact Or.inr ⟨serializeResp (proses_string hash c.fs
            (txt "UPLOAD " ++ (c.tempPath.getD []))).1, by simpa using h,
            Or.inl (jsonWf_serializeResp _)⟩
      · rw [if_neg hend] at ho
        cases hdec : b64decode (stripWs l) with
        | some bs =>
          rw [hdec] at ho
          exact Or.inl ho
        | none =>
          rw [hdec] at ho
          have hx : o ∈ c.out ++ [errEnvelope b64ErrMsg ++ crlf2] := ho
          rcases List.mem_append.mp hx with h | h
          · exact Or.inl h
          · exact Or.inr ⟨errEnvelope b64ErrMsg, by simpa using h,
              Or.inl (by decide : jsonWf (errEnvelope b64ErrMsg) = true)⟩
    · rw [if_neg hup] at ho
      by_cases hpre : (txt "UPLOAD").isPrefixOf (stripWs l) = true
      · rw [if_pos hpre] at ho
        have hx : o ∈ c.out ++ [readyMsg ++ crlf2] := ho
        rcases List.mem_append.mp hx with h | h
        · exact Or.inl h
        · exact Or.inr ⟨readyMsg, by simpa using h, Or.inr rfl⟩
      · rw [if_neg hpre] at ho
        have hx : o ∈ c.out
            ++ [serializeResp (proses_string hash c.fs (stripWs l)).1 ++ crlf2] := ho
        rcases List.mem_append.mp hx with h | h
        · exact Or.inl h
        · exact Or.inr ⟨serializeResp (proses_string hash c.fs (stripWs l)).1,
            by simpa using h, Or.inl (jsonWf_serializeResp _)⟩

theorem drainN_out (hash : List Nat → List Nat) :
    ∀ (f : Nat) (c : Core) (buf : List Nat) (o : List Nat),
      o ∈ (drainN hash f c buf).1.out → o ∈ c.out ∨ goodPayload o
  | 0, _, _, _, ho => Or.inl ho
  | f + 1, c, buf, o, ho => by
    have ho2 : o ∈ (match splitNL buf with
      | none => (c, buf)
      | some (l, r) => drainN hash f (handleLine hash c l) r).1.out := ho
    cases hs : splitNL buf with
    | none =>
      rw [hs] at ho2
      exact Or.inl ho2
    | some lr =>
      rw [hs] at ho2
      rcases drainN_out hash f (handleLine hash c lr.1) lr.2 o ho2 with h | h
      · exact handleLine_out hash c lr.1 o h
      · exact Or.inr h

theorem feedBytes_out (hash : List Nat → List Nat) (m : Core × List Nat) (ch : List Nat)
    (o : List Nat) (ho : o ∈ (feedBytes hash m ch).1.out) : o ∈ m.1.out ∨ goodPayload o := by
  unfold feedBytes at ho
  cases hd : utf8Decode ch with
  | some t =>
    rw [hd] at ho
    exact drainN_out hash _ m.1 (m.2 ++ t) o ho
  | none =>
    rw [hd] at ho
    have hx : o ∈ m.1.out ++ [errEnvelope utf8ErrMsg ++ crlf2] := ho
    rcases List.mem_append.mp hx with h | h
    · exact Or.inl h
    · exact Or.inr ⟨errEnvelope utf8ErrMsg, by simpa using h,
        Or.inl (by decide : jsonWf (errEnvelope utf8ErrMsg) = true)⟩

theorem loopBytes_out (hash : List Nat → List Nat) :
    ∀ (chunks : List (List Nat)) (m : Core × List Nat) (o : List Nat),
      o ∈ (loopBytes hash m chunks).1.out → o ∈ m.1.out ∨ goodPayload o
  | [], _, _, ho => Or.inl ho
  | ch :: rest, m, o, ho => by
    rw [loopBytes_cons] at ho
    by_cases hguard : m.1.closed = true ∨ ch = []
    · rw [if_pos hguard] at ho
      exact Or.inl ho
    · rw [if_neg hguard] at ho
      rcases loopBytes_out hash rest (feedBytes hash m ch) o ho with h | h
      · exact feedBytes_out hash m ch o h
      · exact Or.inr h

theorem finalize_out (c : Core) : (finalize c).out = c.out := by
  unfold finalize
  cases c.tempPath <;> rfl

/-- Claim C9 (corrected): every payload the handler hands to `sendall` is a
complete envelope followed by the `\r\n\r\n` terminator, the envelope being
well-formed JSON except for the plain-text `READY TO RECEIVE FILE`
acknowledgment, so a client never sees a terminator before a full envelope;
and the except-clause f-string error envelope is well-formed JSON for every
error text free of quotes, backslashes and control characters — but not for
every possible text (see the counterexample). -/
theorem claim_C9 (hash : List Nat → List Nat) (fs : Fs) (chunks : List (List Nat)) :
    (∀ o ∈ (runBytes hash (initCore fs) chunks).out,
      ∃ e, o = e ++ crlf2 ∧ (jsonWf e = true ∨ e = readyMsg))
    ∧ (∀ msg, (∀ c ∈ msg, 32 ≤ c ∧ c ≠ 34 ∧ c ≠ 92) →
        jsonWf (errEnvelope msg) = true) := by
  constructor
  · intro o ho
    have ho2 : o ∈ (loopBytes hash (initCore fs, []) chunks).1.out := by
      rw [← finalize_out (loopBytes hash (initCore fs, []) chunks).1]
      exact ho
    rcases loopBytes_out hash chunks (initCore fs, []) o ho2 with h | h
    · cases h
    · exact h
  · intro msg hsafe
    exact jsonWf_errEnvelope msg hsafe

/-- Counterexample to C9 as stated: an error text containing a double quote —
as a backend exception message echoing client input can — breaks the
unescaped f-string envelope of `ClientHandler.run`: the emitted text is not
well-formed JSON. -/
theorem claim_C9_counterexample : jsonWf (errEnvelope (txt "a\"b")) = false := by decide

/-- Witness for C9: in a concrete LIST session the emitted payload is a
well-formed JSON envelope plus terminator, and a concrete quote-free error
text yields a well-formed error envelope. -/
theorem claim_C9_witness :
    (∃ e, serializeResp (.okList []) ++ crlf2 = e ++ crlf2
        ∧ (jsonWf e = true ∨ e = readyMsg))
    ∧ jsonWf (errEnvelope (txt "file missing")) = true := by
  constructor
  · exact (claim_C9 testHash [] [txt "LIST\n"]).1 (serializeResp (.okList []) ++ crlf2)
      (by decide)
  · exact (claim_C9 testHash [] []).2 (txt "file missing") (by decide)

end StressEts
